import Mathlib

/-!
Shallow embedding of the Cesium `ParticleSystem` (packages/engine/Source/Scene/ParticleSystem.js)
over exact rational arithmetic.  JavaScript numbers are modelled as `ℚ`; JS arrays as `List`
(push appends at the end, pop takes the last element, mirroring `Array.prototype.push/pop`);
`undefined`-able values as `Option`.  The GPU billboard collection is modelled as an
association list of handles to billboard records.  The random source
(`CesiumMath.nextRandomNumber`) is modelled as an injected stream `rand : ℕ → ℚ` together with a
cursor `randIndex`, each draw consuming one stream element.  `Math.sqrt` (used only inside
`Cartesian3.normalize` during emission) is modelled as an injected function `sqrtFn : ℚ → ℚ`;
the theorems about the velocity-rotation step take as a hypothesis that `sqrtFn` is exact on
the one value where it is applied.  Two observation-only ghost fields are added to the system
state: `completeRaisedCount` counts how often the `complete` event has been raised
(`Event.raiseEvent`), and `emittedTotal` counts how many particles the emission loop has
pushed; no source behaviour reads them.
-/

namespace Cesium

/-- Three-dimensional vector with rational coordinates, modelling `Cartesian3`. -/
structure Cart3 where
  x : ℚ
  y : ℚ
  z : ℚ
deriving DecidableEq, Repr

namespace Cart3

/-- Componentwise addition, modelling `Cartesian3.add`. -/
def add (a b : Cart3) : Cart3 := ⟨a.x + b.x, a.y + b.y, a.z + b.z⟩

/-- Componentwise subtraction, modelling `Cartesian3.subtract`. -/
def sub (a b : Cart3) : Cart3 := ⟨a.x - b.x, a.y - b.y, a.z - b.z⟩

/-- Scalar multiplication, modelling `Cartesian3.multiplyByScalar`. -/
def smul (c : ℚ) (a : Cart3) : Cart3 := ⟨c * a.x, c * a.y, c * a.z⟩

/-- Dot product, modelling `Cartesian3.dot`; `dot v v` is the squared magnitude. -/
def dot (a b : Cart3) : ℚ := a.x * b.x + a.y * b.y + a.z * b.z

/-- The zero vector (`Cartesian3.ZERO`). -/
def zero : Cart3 := ⟨0, 0, 0⟩

end Cart3

/-- Normalization `Cartesian3.normalize`: divide each component by the magnitude
`Math.sqrt (dot v v)`.  The square root is the injected `sqrtFn` (see module comment). -/
def normalizeQ (sqrtFn : ℚ → ℚ) (v : Cart3) : Cart3 :=
  let m := sqrtFn (Cart3.dot v v)
  ⟨v.x / m, v.y / m, v.z / m⟩

/-- RGBA color with rational channels, modelling `Color`. -/
structure ColorQ where
  red : ℚ
  green : ℚ
  blue : ℚ
  alpha : ℚ
deriving DecidableEq, Repr

/-- The color `Color.WHITE`, the constructor default for `startColor`/`endColor`. -/
def ColorQ.white : ColorQ := ⟨1, 1, 1, 1⟩

/-- Modelled from the spec: `CesiumMath.clamp` (Core/Math.js is not under src/), the standard
clamp of a value into an interval, used for a particle's normalized age. -/
def clampQ (value lo hi : ℚ) : ℚ := min (max value lo) hi

/-- Modelled from the spec: `CesiumMath.lerp` (Core/Math.js is not under src/), linear
interpolation between two endpoints, used for billboard color and scale. -/
def lerpQ (p q t : ℚ) : ℚ := (1 - t) * p + t * q

/-- Modelled from the spec: `CesiumMath.mod` (Core/Math.js is not under src/) for a
nonnegative dividend and nonnegative divisor: the canonical representative
`m - n * ⌊m / n⌋` of `m` modulo `n` (the spec: elapsed time "wraps modulo lifetime").
For `n = 0` rational division by zero makes it `m`. -/
def qmod (m n : ℚ) : ℚ := m - n * ⌊m / n⌋

/-- Modelled from the spec: `CesiumMath.randomBetween(min, max)` (Core/Math.js is not under
src/) computes `r * (max - min) + min` from one draw `r` of the random stream. -/
def randomBetween (r mn mx : ℚ) : ℚ := r * (mx - mn) + mn

/-- Linearly interpolated color, the four `CesiumMath.lerp` calls of `updateBillboard`. -/
def lerpColor (a b : ColorQ) (t : ℚ) : ColorQ :=
  ⟨lerpQ a.red b.red t, lerpQ a.green b.green t, lerpQ a.blue b.blue t,
   lerpQ a.alpha b.alpha t⟩

/-- Affine 4x4 transform, modelling the `Matrix4` values used by the particle system
(rotation/scale block plus translation column; the projective bottom row, which
`Matrix4.multiplyByPoint` ignores, is left implicit as `0 0 0 1`). -/
structure Matrix4Q where
  m00 : ℚ
  m01 : ℚ
  m02 : ℚ
  m03 : ℚ
  m10 : ℚ
  m11 : ℚ
  m12 : ℚ
  m13 : ℚ
  m20 : ℚ
  m21 : ℚ
  m22 : ℚ
  m23 : ℚ
deriving DecidableEq, Repr

namespace Matrix4Q

/-- The identity matrix `Matrix4.IDENTITY`, the constructor default for both
`modelMatrix` and `emitterModelMatrix`. -/
def identity : Matrix4Q := ⟨1, 0, 0, 0, 0, 1, 0, 0, 0, 0, 1, 0⟩

/-- The zero matrix `new Matrix4()`, the constructor value of `_combinedMatrix`. -/
def zero : Matrix4Q := ⟨0, 0, 0, 0, 0, 0, 0, 0, 0, 0, 0, 0⟩

/-- Matrix composition `Matrix4.multiply(a, b)` on affine transforms. -/
def multiply (a b : Matrix4Q) : Matrix4Q :=
  ⟨a.m00 * b.m00 + a.m01 * b.m10 + a.m02 * b.m20,
   a.m00 * b.m01 + a.m01 * b.m11 + a.m02 * b.m21,
   a.m00 * b.m02 + a.m01 * b.m12 + a.m02 * b.m22,
   a.m00 * b.m03 + a.m01 * b.m13 + a.m02 * b.m23 + a.m03,
   a.m10 * b.m00 + a.m11 * b.m10 + a.m12 * b.m20,
   a.m10 * b.m01 + a.m11 * b.m11 + a.m12 * b.m21,
   a.m10 * b.m02 + a.m11 * b.m12 + a.m12 * b.m22,
   a.m10 * b.m03 + a.m11 * b.m13 + a.m12 * b.m23 + a.m13,
   a.m20 * b.m00 + a.m21 * b.m10 + a.m22 * b.m20,
   a.m20 * b.m01 + a.m21 * b.m11 + a.m22 * b.m21,
   a.m20 * b.m02 + a.m21 * b.m12 + a.m22 * b.m22,
   a.m20 * b.m03 + a.m21 * b.m13 + a.m22 * b.m23 + a.m23⟩

/-- Point transform `Matrix4.multiplyByPoint`: apply the affine map to a position. -/
def multiplyByPoint (m : Matrix4Q) (c : Cart3) : Cart3 :=
  ⟨m.m00 * c.x + m.m01 * c.y + m.m02 * c.z + m.m03,
   m.m10 * c.x + m.m11 * c.y + m.m12 * c.z + m.m13,
   m.m20 * c.x + m.m21 * c.y + m.m22 * c.z + m.m23⟩

end Matrix4Q

/-- One billboard record of the billboard collection (the fields of a `Billboard` handle the
particle system reads or writes).  The JS property `show` is named `shown` here. -/
structure Billboard where
  image : Option ℕ
  shown : Bool
  width : ℚ
  height : ℚ
  position : Cart3
  sizeInMeters : Bool
  color : ColorQ
  scale : ℚ
deriving DecidableEq, Repr

/-- Default field values of a freshly added billboard (`BillboardCollection.add` with an
absent descriptor field; in particular `show` defaults to `true`). -/
def Billboard.default : Billboard :=
  ⟨none, true, 0, 0, Cart3.zero, false, ColorQ.white, 1⟩

/-- The billboard sink, modelling `BillboardCollection`: a store of billboard records
addressed by handles.  `add` hands out increasing fresh handles. -/
structure BillboardCollection where
  nextId : ℕ
  entries : List (ℕ × Billboard)
deriving DecidableEq, Repr

namespace BillboardCollection

/-- A new, empty collection (`new BillboardCollection()`). -/
def empty : BillboardCollection := ⟨0, []⟩

/-- Add a billboard (`BillboardCollection.add`); returns the updated collection and the
handle standing for the returned `Billboard` object. -/
def add (bc : BillboardCollection) (b : Billboard) : BillboardCollection × ℕ :=
  (⟨bc.nextId + 1, bc.entries ++ [(bc.nextId, b)]⟩, bc.nextId)

/-- Physically remove a billboard (`BillboardCollection.remove`); removing an undefined
handle is a no-op, as in the source. -/
def remove (bc : BillboardCollection) (h : Option ℕ) : BillboardCollection :=
  match h with
  | none => bc
  | some i => ⟨bc.nextId, bc.entries.filter (fun e => e.1 ≠ i)⟩

/-- Mutate the billboard behind a handle (property assignments on a `Billboard`). -/
def modify (bc : BillboardCollection) (h : ℕ) (f : Billboard → Billboard) :
    BillboardCollection :=
  ⟨bc.nextId, bc.entries.map (fun e => if e.1 = h then (e.1, f e.2) else e)⟩

/-- Look up the billboard behind a handle. -/
def find (bc : BillboardCollection) (h : ℕ) : Option Billboard :=
  (bc.entries.find? (fun e => e.1 = h)).map (fun e => e.2)

end BillboardCollection

/-- A scheduled burst, modelling `ParticleBurst` (time, count bounds, fired flag
`_complete`). -/
structure ParticleBurst where
  time : ℚ
  minimum : ℚ
  maximum : ℚ
  complete : Bool
deriving DecidableEq, Repr

/-- One simulated particle, modelling `Particle` (Scene/Particle.js is not under src/; the
attribute list follows the spec's data model).  `billboard` is the ownership-exclusive
back-reference `_billboard` into the billboard collection. -/
structure Particle where
  position : Cart3
  velocity : Cart3
  startColor : ColorQ
  endColor : ColorQ
  startScale : ℚ
  endScale : ℚ
  image : Option ℕ
  imageSize : ℚ × ℚ
  mass : ℚ
  life : ℚ
  age : ℚ
  normalizedAge : ℚ
  billboard : Option ℕ
deriving DecidableEq, Repr

/-- Modelled from the spec: the state of `new Particle()` (Scene/Particle.js is not under
src/); a zero-initialized particle with no billboard, as produced by `getOrCreateParticle`
when the pool is empty and by `updateParticlePool` when pre-allocating. -/
def Particle.fresh : Particle :=
  ⟨Cart3.zero, Cart3.zero, ColorQ.white, ColorQ.white, 1, 1, none, (1, 1), 1, 5, 0, 0, none⟩

/-- Modelled from the spec: `Particle.prototype.update` (Scene/Particle.js is not under
src/), following section 4.3 of the spec: age the particle by `dt`; if `age > life` report
it dead; otherwise recompute `normalizedAge = clamp(age/life, 0, 1)`, run the optional
update hook, integrate `position += velocity * dt`, and report it alive. -/
def Particle.update (p : Particle) (dt : ℚ) (hook : Option (Particle → ℚ → Particle)) :
    Particle × Bool :=
  let p1 : Particle := { p with age := p.age + dt }
  if p1.life < p1.age then (p1, false)
  else
    let p2 : Particle := { p1 with normalizedAge := clampQ (p1.age / p1.life) 0 1 }
    let p3 : Particle :=
      match hook with
      | none => p2
      | some f => f p2 dt
    ({ p3 with position := Cart3.add p3.position (Cart3.smul dt p3.velocity) }, true)

/-- The particle system state, modelling the fields written by the `ParticleSystem`
constructor.  `shown` is the JS property `show`; `lifetime = none` stands for the default
`Number.MAX_VALUE` (the `_lifetime !== Number.MAX_VALUE` test becomes an `Option` match,
and `CesiumMath.mod(dt, Number.MAX_VALUE)` returns `dt` unchanged);
`completeRaisedCount` and `emittedTotal` are observation-only ghost counters (module
comment); `rand`, `randIndex` and `sqrtFn` model the random stream and `Math.sqrt`. -/
structure ParticleSystem where
  shown : Bool
  updateCallback : Option (Particle → ℚ → Particle)
  loop : Bool
  image : Option ℕ
  emitter : Option (Particle → Particle)
  bursts : Option (List ParticleBurst)
  modelMatrix : Matrix4Q
  emitterModelMatrix : Matrix4Q
  matrixDirty : Bool
  combinedMatrix : Matrix4Q
  startColor : ColorQ
  endColor : ColorQ
  startScale : ℚ
  endScale : ℚ
  emissionRate : ℚ
  minimumSpeed : ℚ
  maximumSpeed : ℚ
  minimumParticleLife : ℚ
  maximumParticleLife : ℚ
  minimumMass : ℚ
  maximumMass : ℚ
  minimumImageSize : ℚ × ℚ
  maximumImageSize : ℚ × ℚ
  sizeInMeters : Bool
  lifetime : Option ℚ
  billboardCollection : Option BillboardCollection
  particles : List Particle
  particlePool : List Particle
  previousTime : Option ℚ
  currentTime : ℚ
  carryOver : ℚ
  completeRaisedCount : ℕ
  isComplete : Bool
  updateParticlePoolFlag : Bool
  particleEstimate : ℤ
  emittedTotal : ℕ
  rand : ℕ → ℚ
  randIndex : ℕ
  sqrtFn : ℚ → ℚ

/-- A system as built by the `ParticleSystem(options)` constructor: the listed options are
explicit, every other field takes the constructor's default. -/
def mkSystem (shown loop : Bool) (emitter : Option (Particle → Particle))
    (bursts : Option (List ParticleBurst)) (emissionRate : ℚ) (lifetime : Option ℚ)
    (minimumSpeed maximumSpeed minimumParticleLife maximumParticleLife : ℚ)
    (rand : ℕ → ℚ) (sqrtFn : ℚ → ℚ) : ParticleSystem where
  shown := shown
  updateCallback := none
  loop := loop
  image := none
  emitter := emitter
  bursts := bursts
  modelMatrix := Matrix4Q.identity
  emitterModelMatrix := Matrix4Q.identity
  matrixDirty := true
  combinedMatrix := Matrix4Q.zero
  startColor := ColorQ.white
  endColor := ColorQ.white
  startScale := 1
  endScale := 1
  emissionRate := emissionRate
  minimumSpeed := minimumSpeed
  maximumSpeed := maximumSpeed
  minimumParticleLife := minimumParticleLife
  maximumParticleLife := maximumParticleLife
  minimumMass := 1
  maximumMass := 1
  minimumImageSize := (1, 1)
  maximumImageSize := (1, 1)
  sizeInMeters := false
  lifetime := lifetime
  billboardCollection := none
  particles := []
  particlePool := []
  previousTime := none
  currentTime := 0
  carryOver := 0
  completeRaisedCount := 0
  isComplete := false
  updateParticlePoolFlag := true
  particleEstimate := 0
  emittedTotal := 0
  rand := rand
  randIndex := 0
  sqrtFn := sqrtFn

/-- The current billboard collection; `ParticleSystem.update` creates it before any helper
touches it, so the default is never observed on the source's paths. -/
def bcOf (s : ParticleSystem) : BillboardCollection :=
  s.billboardCollection.getD BillboardCollection.empty

/-- Property setter `emissionRate =` : store the value and flag the pool for resizing. -/
def setEmissionRate (s : ParticleSystem) (v : ℚ) : ParticleSystem :=
  { s with emissionRate := v, updateParticlePoolFlag := true }

/-- Property setter `bursts =` : store the value and flag the pool for resizing. -/
def setBursts (s : ParticleSystem) (v : Option (List ParticleBurst)) : ParticleSystem :=
  { s with bursts := v, updateParticlePoolFlag := true }

/-- Property setter `maximumParticleLife =` : store the value and flag the pool for
resizing. -/
def setMaximumParticleLife (s : ParticleSystem) (v : ℚ) : ParticleSystem :=
  { s with maximumParticleLife := v, updateParticlePoolFlag := true }

/-- The `burstAmount` loop of `updateParticlePool`: the sum of `bursts[i].maximum`. -/
def burstMaxSum (s : ParticleSystem) : ℚ :=
  (s.bursts.getD []).foldl (fun a b => a + b.maximum) 0

/-- The capacity estimate `Math.ceil(emissionRate * life + burstAmount)` of
`updateParticlePool`. -/
def estimateOf (s : ParticleSystem) : ℤ :=
  ⌈s.emissionRate * s.maximumParticleLife + burstMaxSum s⌉

/-- The allocation loop of `updateParticlePool`: push `n` fresh particles, each
pre-registered with a billboard added hidden (`show: false`) to the collection. -/
def addNewParticles (image : Option ℕ) :
    ℕ → List Particle × BillboardCollection → List Particle × BillboardCollection
  | 0, pb => pb
  | n + 1, pb =>
    let a := pb.2.add { Billboard.default with image := image, shown := false }
    addNewParticles image n (pb.1 ++ [{ Particle.fresh with billboard := some a.2 }], a.1)

/-- `updateParticlePool(system)`: recompute the capacity estimate, top the pool up by
`max(estimate - particles.length - particlePool.length, 0)` pre-registered particles, and
store the estimate. -/
def updateParticlePool (s : ParticleSystem) : ParticleSystem :=
  let particleEstimate := estimateOf s
  let numToAdd := (max (particleEstimate - s.particles.length - s.particlePool.length) 0).toNat
  let pb := addNewParticles s.image numToAdd (s.particlePool, bcOf s)
  { s with particlePool := pb.1, billboardCollection := some pb.2,
           particleEstimate := particleEstimate }

/-- `getOrCreateParticle`: pop the last pool entry (`Array.prototype.pop`), or construct a
fresh particle when the pool is empty. -/
def popPool (pool : List Particle) : Particle × List Particle :=
  match pool.getLast? with
  | some p => (p, pool.dropLast)
  | none => (Particle.fresh, pool)

/-- `freeParticlePool(system)`: remove the billboards of the pool entries from index
`start = numInPool - max(estimate - numParticles - numInPool, 0)` on and truncate the pool
to `start`.  For `start < 0` the source would index past the front of the array and throw;
the model clamps the index to `0` (that branch needs `estimate > particles + pool`, which
`updateParticlePool` precludes). -/
def freeParticlePool (s : ParticleSystem) : ParticleSystem :=
  let numParticles : ℤ := s.particles.length
  let numInPool : ℤ := s.particlePool.length
  let start : ℤ := numInPool - max (s.particleEstimate - numParticles - numInPool) 0
  let bc := (s.particlePool.drop start.toNat).foldl
    (fun bc p => bc.remove p.billboard) (bcOf s)
  { s with particlePool := s.particlePool.take start.toNat, billboardCollection := some bc }

/-- `removeBillboard(particle)`: hide (not remove) the billboard of a retired particle. -/
def hideBillboard (bc : BillboardCollection) (p : Particle) : BillboardCollection :=
  match p.billboard with
  | none => bc
  | some h => bc.modify h (fun b => { b with shown := false })

/-- `updateBillboard(system, particle)`: lazily register a billboard for the particle, then
push position, size, visibility and the interpolated color and scale to it. -/
def updateBillboard (sim : Bool) (bc : BillboardCollection) (p : Particle) :
    Particle × BillboardCollection :=
  let pbch :=
    match p.billboard with
    | some h => (p, bc, h)
    | none =>
      let a := bc.add { Billboard.default with image := p.image }
      ({ p with billboard := some a.2 }, a.1, a.2)
  let color := lerpColor pbch.1.startColor pbch.1.endColor pbch.1.normalizedAge
  let scale := lerpQ pbch.1.startScale pbch.1.endScale pbch.1.normalizedAge
  (pbch.1, pbch.2.1.modify pbch.2.2 (fun b =>
    { b with width := pbch.1.imageSize.1, height := pbch.1.imageSize.2,
             position := pbch.1.position, sizeInMeters := sim, shown := true,
             color := color, scale := scale }))

/-- The live-particle loop of `ParticleSystem.prototype.update` (lines 736-750): update
each particle; a dead one has its billboard hidden and is appended to the retired list,
and the last unprocessed particle is swapped into its slot (`particles[i] =
particles[length - 1]`).  `fuel` is the number of slots still to process; the caller
passes the list length, and both shrink in lockstep, so the fuel never runs out.
Returns (survivors, retired in retirement order, updated collection). -/
def sweepAux (dt : ℚ) (hook : Option (Particle → ℚ → Particle)) (sim : Bool) :
    ℕ → List Particle → BillboardCollection →
    List Particle × List Particle × BillboardCollection
  | _, [], bc => ([], [], bc)
  | 0, ps, bc => (ps, [], bc)
  | fuel + 1, p :: rest, bc =>
    let pu := Particle.update p dt hook
    if pu.2 then
      let ub := updateBillboard sim bc pu.1
      let r := sweepAux dt hook sim fuel rest ub.2
      (ub.1 :: r.1, r.2.1, r.2.2)
    else
      let bc1 := hideBillboard bc pu.1
      match rest.reverse with
      | [] => ([], [pu.1], bc1)
      | lastp :: revFront =>
        let r := sweepAux dt hook sim fuel (lastp :: revFront.reverse) bc1
        (r.1, pu.1 :: r.2.1, r.2.2)

/-- The live-particle loop entry point: run `sweepAux` with fuel `particles.length`. -/
def sweepGo (dt : ℚ) (hook : Option (Particle → ℚ → Particle)) (sim : Bool)
    (ps : List Particle) (bc : BillboardCollection) :
    List Particle × List Particle × BillboardCollection :=
  sweepAux dt hook sim ps.length ps bc

/-- `CesiumMath.mod(dt, lifetime)` as called by `calculateNumberToEmit`: with the default
lifetime (`none`, i.e. `Number.MAX_VALUE`) the value is returned unchanged. -/
def wrapDt (dt : ℚ) (lifetime : Option ℚ) : ℚ :=
  match lifetime with
  | none => dt
  | some l => qmod dt l

/-- The burst loop of `calculateNumberToEmit` (lines 684-694): a burst that has not fired
and whose `time` lies strictly before the current elapsed time adds
`randomBetween(minimum, maximum)` to the count and is marked fired.  Threads the random
cursor and accumulates the count. -/
def runBursts (rand : ℕ → ℚ) (currentTime : ℚ) :
    ℕ → ℚ → List ParticleBurst → ℕ × ℚ × List ParticleBurst
  | idx, acc, [] => (idx, acc, [])
  | idx, acc, b :: rest =>
    if b.complete = false ∧ b.time < currentTime then
      let amt := randomBetween (rand idx) b.minimum b.maximum
      let r := runBursts rand currentTime (idx + 1) (acc + amt) rest
      (r.1, r.2.1, { b with complete := true } :: r.2.2)
    else
      let r := runBursts rand currentTime idx acc rest
      (r.1, r.2.1, b :: r.2.2)

/-- `calculateNumberToEmit(system, dt)`: 0 when complete; otherwise wrap `dt` modulo the
lifetime, take `⌊dt * emissionRate⌋` plus a carried unit when the fractional carry-over
exceeds 1, then add the pending bursts.  Returns the updated system (carry-over, random
cursor, burst flags) and the count. -/
def calculateNumberToEmit (s : ParticleSystem) (dt : ℚ) : ParticleSystem × ℚ :=
  if s.isComplete then (s, 0)
  else
    let v := wrapDt dt s.lifetime * s.emissionRate
    let w : ℤ := ⌊v⌋
    let carry1 := s.carryOver + (v - (w : ℚ))
    let n1 : ℚ := if 1 < carry1 then (w : ℚ) + 1 else (w : ℚ)
    let carry2 := if 1 < carry1 then carry1 - 1 else carry1
    match s.bursts with
    | none => ({ s with carryOver := carry2 }, n1)
    | some bl =>
      let rb := runBursts s.rand s.currentTime s.randIndex n1 bl
      ({ s with carryOver := carry2, randIndex := rb.1, bursts := some rb.2.2 }, rb.2.1)

/-- The iteration count of the JS loop `for (i = 0; i < numToEmit; i++)` for a possibly
fractional bound: `max(⌈numToEmit⌉, 0)`. -/
def jsLoopCount (q : ℚ) : ℕ := (max ⌈q⌉ 0).toNat

/-- The particle built by one emission-loop iteration before the billboard push (lines
769-803): take the pool's last particle (or a fresh one), let the emitter initialize it,
transform `position + velocity` and `position` into world space by the combined matrix,
re-derive and normalize the velocity direction, then (`addParticle`) fill in the visual
attributes, sample life, mass, image size and speed from the configured bounds, and
scale the velocity by the sampled speed. -/
def emittedParticle (e : Particle → Particle) (s : ParticleSystem) : Particle :=
  let p1 := e (popPool s.particlePool).1
  let rotatedVelocity := Matrix4Q.multiplyByPoint s.combinedMatrix
    (Cart3.add p1.position p1.velocity)
  let worldPosition := Matrix4Q.multiplyByPoint s.combinedMatrix p1.position
  let p2 : Particle := { p1 with
    position := worldPosition,
    velocity := normalizeQ s.sqrtFn (Cart3.sub rotatedVelocity worldPosition) }
  let p3 : Particle := { p2 with
    startColor := s.startColor, endColor := s.endColor,
    startScale := s.startScale, endScale := s.endScale, image := s.image,
    life := randomBetween (s.rand s.randIndex) s.minimumParticleLife s.maximumParticleLife,
    mass := randomBetween (s.rand (s.randIndex + 1)) s.minimumMass s.maximumMass,
    imageSize :=
      (randomBetween (s.rand (s.randIndex + 2)) s.minimumImageSize.1 s.maximumImageSize.1,
       randomBetween (s.rand (s.randIndex + 3)) s.minimumImageSize.2 s.maximumImageSize.2),
    normalizedAge := 0, age := 0 }
  { p3 with
    velocity := Cart3.smul
      (randomBetween (s.rand (s.randIndex + 4)) s.minimumSpeed s.maximumSpeed)
      p3.velocity }

/-- One iteration of the emission loop (lines 767-804): build the particle
(`emittedParticle`), remove it from the pool, push it to the live set and
(`updateBillboard`) to the billboard collection. -/
def emitOne (e : Particle → Particle) (s : ParticleSystem) : ParticleSystem :=
  let ub := updateBillboard s.sizeInMeters (bcOf s) (emittedParticle e s)
  { s with particles := s.particles ++ [ub.1],
           particlePool := (popPool s.particlePool).2,
           billboardCollection := some ub.2, randIndex := s.randIndex + 5,
           emittedTotal := s.emittedTotal + 1 }

/-- The emission loop: `n` iterations of `emitOne`. -/
def emitPhase (e : Particle → Particle) : ℕ → ParticleSystem → ParticleSystem
  | 0, s => s
  | n + 1, s => emitPhase e n (emitOne e s)

/-- The dirty-flag recombination of the transforms (lines 756-763): multiply `modelMatrix`
by `emitterModelMatrix` only when one of them changed. -/
def matrixPhase (s : ParticleSystem) : ParticleSystem :=
  if s.matrixDirty then
    { s with combinedMatrix := Matrix4Q.multiply s.modelMatrix s.emitterModelMatrix,
             matrixDirty := false }
  else s

/-- Lazy creation of the billboard collection (lines 709-711). -/
def ensurePhase (s : ParticleSystem) : ParticleSystem :=
  { s with billboardCollection := some (bcOf s) }

/-- Pool resizing on a configuration change (lines 713-716). -/
def poolPhase (s : ParticleSystem) : ParticleSystem :=
  if s.updateParticlePoolFlag then
    { updateParticlePool s with updateParticlePoolFlag := false }
  else s

/-- The frame delta (lines 718-726): the difference from the previous frame time, `0` on
the first call, clamped to be nonnegative. -/
def frameDt (s : ParticleSystem) (time : ℚ) : ℚ :=
  let dt :=
    match s.previousTime with
    | none => (0 : ℚ)
    | some t => time - t
  if dt < 0 then 0 else dt

/-- The live-particle loop woven into the system state: survivors replace the live array,
retired particles are pushed onto the pool (`addParticleToPool`), and the collection takes
the accumulated billboard writes. -/
def phaseSweep (dt : ℚ) (s : ParticleSystem) : ParticleSystem :=
  let r := sweepGo dt s.updateCallback s.sizeInMeters s.particles (bcOf s)
  { s with particles := r.1, particlePool := s.particlePool ++ r.2.1,
           billboardCollection := some r.2.2 }

/-- Emission (lines 752-805): ask the scheduler for the count; when it is positive and an
emitter is configured, recombine the transforms if dirty and run the emission loop. -/
def phaseEmit (dt : ℚ) (s : ParticleSystem) : ParticleSystem :=
  let r := calculateNumberToEmit s dt
  match r.1.emitter with
  | some e => if 0 < r.2 then emitPhase e (jsLoopCount r.2) (matrixPhase r.1) else r.1
  | none => r.1

/-- Clock bookkeeping (lines 808-809): remember the frame time and advance the elapsed
time by `dt`. -/
def timePhase (time dt : ℚ) (s : ParticleSystem) : ParticleSystem :=
  { s with previousTime := some time, currentTime := s.currentTime + dt }

/-- Lifetime handling (lines 811-828): with a finite lifetime exceeded, a looping system
wraps the elapsed time modulo the lifetime and resets every burst's fired flag, while a
non-looping system sets `isComplete` and raises the `complete` event (counted by the
ghost field). -/
def lifetimePhase (s : ParticleSystem) : ParticleSystem :=
  match s.lifetime with
  | none => s
  | some l =>
    if l < s.currentTime then
      if s.loop then
        { s with currentTime := qmod s.currentTime l,
                 bursts := s.bursts.map
                   (fun bl => bl.map (fun b => { b with complete := false })) }
      else
        { s with isComplete := true, completeRaisedCount := s.completeRaisedCount + 1 }
    else s

/-- `ParticleSystem.prototype.update(frameState)`: no-op when hidden; otherwise create the
collection lazily, resize the pool if flagged, compute the clamped frame delta, sweep the
live particles, emit, advance the clock, handle lifetime completion or wrap-around, and on
every 120th frame run `freeParticlePool`.  (`billboardCollection.update(frameState)` is
GPU-side rendering with no effect on this state and is not modelled.) -/
def ParticleSystem.update (s : ParticleSystem) (time : ℚ) (frameNumber : ℕ) :
    ParticleSystem :=
  if s.shown = false then s
  else
    let s1 := poolPhase (ensurePhase s)
    let dt := frameDt s1 time
    let s2 := lifetimePhase (timePhase time dt (phaseEmit dt (phaseSweep dt s1)))
    if frameNumber % 120 = 0 then freeParticlePool s2 else s2

/-- The phases of a non-hidden update before the 120-frame pool sweep, named for reuse in
proofs: `ParticleSystem.update` on a shown system is `updateCore` followed by
`freeParticlePool` on every 120th frame. -/
def updateCore (s : ParticleSystem) (time : ℚ) : ParticleSystem :=
  lifetimePhase (timePhase time (frameDt (poolPhase (ensurePhase s)) time)
    (phaseEmit (frameDt (poolPhase (ensurePhase s)) time)
      (phaseSweep (frameDt (poolPhase (ensurePhase s)) time) (poolPhase (ensurePhase s)))))

/-- A sequence of update calls, each given its frame time and frame number. -/
def runUpdates (s : ParticleSystem) (frames : List (ℚ × ℕ)) : ParticleSystem :=
  frames.foldl (fun s f => ParticleSystem.update s f.1 f.2) s

/-- Variant of `emitOne` that follows the spec's account of the emission step to the
letter, for comparison with the source: the velocity magnitude is "already chosen from
the configured speed bounds before this rotation step", i.e. the emitter's velocity is
scaled by the sampled speed first, and the rotation then transforms
`position + velocity`, subtracts the transformed position and normalizes, with no later
rescaling.  All random draws use the same stream positions as `emitOne`. -/
def emitOneSpecOrder (e : Particle → Particle) (s : ParticleSystem) : ParticleSystem :=
  let pp := popPool s.particlePool
  let p0 := e pp.1
  let p1 : Particle := { p0 with
    velocity := Cart3.smul
      (randomBetween (s.rand (s.randIndex + 4)) s.minimumSpeed s.maximumSpeed) p0.velocity }
  let rotatedVelocity := Matrix4Q.multiplyByPoint s.combinedMatrix
    (Cart3.add p1.position p1.velocity)
  let worldPosition := Matrix4Q.multiplyByPoint s.combinedMatrix p1.position
  let p2 : Particle := { p1 with
    position := worldPosition,
    velocity := normalizeQ s.sqrtFn (Cart3.sub rotatedVelocity worldPosition) }
  let p3 : Particle := { p2 with
    startColor := s.startColor, endColor := s.endColor,
    startScale := s.startScale, endScale := s.endScale, image := s.image,
    life := randomBetween (s.rand s.randIndex) s.minimumParticleLife s.maximumParticleLife,
    mass := randomBetween (s.rand (s.randIndex + 1)) s.minimumMass s.maximumMass,
    imageSize :=
      (randomBetween (s.rand (s.randIndex + 2)) s.minimumImageSize.1 s.maximumImageSize.1,
       randomBetween (s.rand (s.randIndex + 3)) s.minimumImageSize.2 s.maximumImageSize.2),
    normalizedAge := 0, age := 0 }
  let ub := updateBillboard s.sizeInMeters (bcOf s) p3
  { s with particles := s.particles ++ [ub.1], particlePool := pp.2,
           billboardCollection := some ub.2, randIndex := s.randIndex + 5,
           emittedTotal := s.emittedTotal + 1 }

/-- Sample system: non-looping, finite lifetime 1, emission rate 0, no emitter. -/
def sysNonLoop : ParticleSystem :=
  mkSystem true false none none 0 (some 1) 1 1 5 5 (fun _ => 0) (fun _ => 0)

/-- Sample system: looping (the default), infinite lifetime, emission rate 1/2. -/
def sysHalfRate : ParticleSystem :=
  mkSystem true true none none (1/2) none 1 1 5 5 (fun _ => 0) (fun _ => 0)

/-- Sample system: emission rate 0 with a single burst at time 0 with
`minimum = maximum = 3` and a pass-through emitter. -/
def sysBurst3 : ParticleSystem :=
  mkSystem true true (some (fun p => p)) (some [⟨0, 3, 3, false⟩]) 0 none 1 1 5 5
    (fun _ => 0) (fun _ => 0)

/-- Sample state for the periodic shrink: capacity estimate 2, no live particles, and a
pool of 5 retired particles, each owning one of the 5 billboards in the collection; the
pool exceeds what estimate and live count require by 3. -/
def sysPoolExcess : ParticleSystem :=
  { mkSystem true true none none 0 none 1 1 5 5 (fun _ => 0) (fun _ => 0) with
    particleEstimate := 2,
    particlePool := [{ Particle.fresh with billboard := some 0 },
                     { Particle.fresh with billboard := some 1 },
                     { Particle.fresh with billboard := some 2 },
                     { Particle.fresh with billboard := some 3 },
                     { Particle.fresh with billboard := some 4 }],
    billboardCollection := some ⟨5, [(0, Billboard.default), (1, Billboard.default),
      (2, Billboard.default), (3, Billboard.default), (4, Billboard.default)]⟩ }

/-- Sample mid-run state: one live particle aged 1 of life 5, a remembered previous frame
time, infinite lifetime. -/
def sysMidRun : ParticleSystem :=
  { mkSystem true true none none 1 none 1 1 5 5 (fun _ => 0) (fun _ => 0) with
    previousTime := some 5,
    particles := [{ Particle.fresh with life := 5, age := 1 }] }

/-- Sample looping state about to wrap: lifetime 10, elapsed 7, previous frame time 0, so
an update at frame time 5 nominally reaches elapsed 12. -/
def sysAboutToWrap : ParticleSystem :=
  { mkSystem true true none (some [⟨1, 2, 2, true⟩]) 0 (some 10) 1 1 5 5
      (fun _ => 0) (fun _ => 0) with
    previousTime := some 0, currentTime := 7 }

/-- Sample completed state: non-looping, lifetime 1 already exceeded, `isComplete` set,
one live particle, pool sizing already done. -/
def sysCompleted : ParticleSystem :=
  { mkSystem true false none none 1 (some 1) 1 1 5 5 (fun _ => 0) (fun _ => 0) with
    isComplete := true, previousTime := some 0, currentTime := 2,
    billboardCollection := some BillboardCollection.empty,
    updateParticlePoolFlag := false,
    particles := [{ Particle.fresh with life := 5, age := 1 }] }

/-- Sample hidden system (`show = false`). -/
def sysHidden : ParticleSystem :=
  mkSystem false true none none 5 none 1 1 5 5 (fun _ => 0) (fun _ => 0)

/-- Sample emitter placing the particle at the origin with unit velocity along x. -/
def emitterUnitX : Particle → Particle :=
  fun p => { p with position := Cart3.zero, velocity := ⟨1, 0, 0⟩ }

/-- Sample emitter placing the particle at the origin with velocity (0, 3, 4) of
magnitude 5. -/
def emitter034 : Particle → Particle :=
  fun p => { p with position := Cart3.zero, velocity := ⟨0, 3, 4⟩ }

/-- Sample system for the emission rotation step: identity combined transform, speed
bounds 2..2, and a square root exact on the two values it meets. -/
def sysRotate : ParticleSystem :=
  { mkSystem true true (some emitterUnitX) none 0 none 2 2 5 5 (fun _ => 0)
      (fun q => if q = 1 then 1 else if q = 4 then 2 else 0) with
    combinedMatrix := Matrix4Q.identity }

/-- Sample system for the rotation-speed theorem: a scaling combined transform (factor 3
on every axis), speed bounds 2..2, and a square root exact on the squared magnitude 225
met after the transform. -/
def sysRotateScaled : ParticleSystem :=
  { mkSystem true true (some emitter034) none 0 none 2 2 5 5 (fun _ => 0)
      (fun q => if q = 225 then 15 else 0) with
    combinedMatrix := ⟨3, 0, 0, 0, 0, 3, 0, 0, 0, 0, 3, 0⟩ }

/-! Preservation lemmas: which state fields each update phase leaves untouched. -/

@[simp] theorem ensurePhase_currentTime (s : ParticleSystem) :
    (ensurePhase s).currentTime = s.currentTime := rfl

@[simp] theorem ensurePhase_previousTime (s : ParticleSystem) :
    (ensurePhase s).previousTime = s.previousTime := rfl

@[simp] theorem ensurePhase_isComplete (s : ParticleSystem) :
    (ensurePhase s).isComplete = s.isComplete := rfl

@[simp] theorem ensurePhase_completeRaisedCount (s : ParticleSystem) :
    (ensurePhase s).completeRaisedCount = s.completeRaisedCount := rfl

@[simp] theorem ensurePhase_loop (s : ParticleSystem) :
    (ensurePhase s).loop = s.loop := rfl

@[simp] theorem ensurePhase_lifetime (s : ParticleSystem) :
    (ensurePhase s).lifetime = s.lifetime := rfl

@[simp] theorem ensurePhase_carryOver (s : ParticleSystem) :
    (ensurePhase s).carryOver = s.carryOver := rfl

@[simp] theorem ensurePhase_bursts (s : ParticleSystem) :
    (ensurePhase s).bursts = s.bursts := rfl

@[simp] theorem ensurePhase_particles (s : ParticleSystem) :
    (ensurePhase s).particles = s.particles := rfl

@[simp] theorem ensurePhase_particlePool (s : ParticleSystem) :
    (ensurePhase s).particlePool = s.particlePool := rfl

@[simp] theorem ensurePhase_emittedTotal (s : ParticleSystem) :
    (ensurePhase s).emittedTotal = s.emittedTotal := rfl

@[simp] theorem ensurePhase_emissionRate (s : ParticleSystem) :
    (ensurePhase s).emissionRate = s.emissionRate := rfl

@[simp] theorem ensurePhase_maximumParticleLife (s : ParticleSystem) :
    (ensurePhase s).maximumParticleLife = s.maximumParticleLife := rfl

@[simp] theorem ensurePhase_emitter (s : ParticleSystem) :
    (ensurePhase s).emitter = s.emitter := rfl

@[simp] theorem ensurePhase_updateCallback (s : ParticleSystem) :
    (ensurePhase s).updateCallback = s.updateCallback := rfl

@[simp] theorem ensurePhase_updateParticlePoolFlag (s : ParticleSystem) :
    (ensurePhase s).updateParticlePoolFlag = s.updateParticlePoolFlag := rfl

@[simp] theorem poolPhase_currentTime (s : ParticleSystem) :
    (poolPhase s).currentTime = s.currentTime := by
  unfold poolPhase updateParticlePool; split <;> rfl

@[simp] theorem poolPhase_previousTime (s : ParticleSystem) :
    (poolPhase s).previousTime = s.previousTime := by
  unfold poolPhase updateParticlePool; split <;> rfl

@[simp] theorem poolPhase_isComplete (s : ParticleSystem) :
    (poolPhase s).isComplete = s.isComplete := by
  unfold poolPhase updateParticlePool; split <;> rfl

@[simp] theorem poolPhase_completeRaisedCount (s : ParticleSystem) :
    (poolPhase s).completeRaisedCount = s.completeRaisedCount := by
  unfold poolPhase updateParticlePool; split <;> rfl

@[simp] theorem poolPhase_loop (s : ParticleSystem) :
    (poolPhase s).loop = s.loop := by
  unfold poolPhase updateParticlePool; split <;> rfl

@[simp] theorem poolPhase_lifetime (s : ParticleSystem) :
    (poolPhase s).lifetime = s.lifetime := by
  unfold poolPhase updateParticlePool; split <;> rfl

@[simp] theorem poolPhase_carryOver (s : ParticleSystem) :
    (poolPhase s).carryOver = s.carryOver := by
  unfold poolPhase updateParticlePool; split <;> rfl

@[simp] theorem poolPhase_bursts (s : ParticleSystem) :
    (poolPhase s).bursts = s.bursts := by
  unfold poolPhase updateParticlePool; split <;> rfl

@[simp] theorem poolPhase_particles (s : ParticleSystem) :
    (poolPhase s).particles = s.particles := by
  unfold poolPhase updateParticlePool; split <;> rfl

@[simp] theorem poolPhase_emittedTotal (s : ParticleSystem) :
    (poolPhase s).emittedTotal = s.emittedTotal := by
  unfold poolPhase updateParticlePool; split <;> rfl

@[simp] theorem poolPhase_emissionRate (s : ParticleSystem) :
    (poolPhase s).emissionRate = s.emissionRate := by
  unfold poolPhase updateParticlePool; split <;> rfl

@[simp] theorem poolPhase_emitter (s : ParticleSystem) :
    (poolPhase s).emitter = s.emitter := by
  unfold poolPhase updateParticlePool; split <;> rfl

@[simp] theorem poolPhase_updateCallback (s : ParticleSystem) :
    (poolPhase s).updateCallback = s.updateCallback := by
  unfold poolPhase updateParticlePool; split <;> rfl

@[simp] theorem phaseSweep_currentTime (dt : ℚ) (s : ParticleSystem) :
    (phaseSweep dt s).currentTime = s.currentTime := rfl

@[simp] theorem phaseSweep_previousTime (dt : ℚ) (s : ParticleSystem) :
    (phaseSweep dt s).previousTime = s.previousTime := rfl

@[simp] theorem phaseSweep_isComplete (dt : ℚ) (s : ParticleSystem) :
    (phaseSweep dt s).isComplete = s.isComplete := rfl

@[simp] theorem phaseSweep_completeRaisedCount (dt : ℚ) (s : ParticleSystem) :
    (phaseSweep dt s).completeRaisedCount = s.completeRaisedCount := rfl

@[simp] theorem phaseSweep_loop (dt : ℚ) (s : ParticleSystem) :
    (phaseSweep dt s).loop = s.loop := rfl

@[simp] theorem phaseSweep_lifetime (dt : ℚ) (s : ParticleSystem) :
    (phaseSweep dt s).lifetime = s.lifetime := rfl

@[simp] theorem phaseSweep_carryOver (dt : ℚ) (s : ParticleSystem) :
    (phaseSweep dt s).carryOver = s.carryOver := rfl

@[simp] theorem phaseSweep_bursts (dt : ℚ) (s : ParticleSystem) :
    (phaseSweep dt s).bursts = s.bursts := rfl

@[simp] theorem phaseSweep_emittedTotal (dt : ℚ) (s : ParticleSystem) :
    (phaseSweep dt s).emittedTotal = s.emittedTotal := rfl

@[simp] theorem phaseSweep_emissionRate (dt : ℚ) (s : ParticleSystem) :
    (phaseSweep dt s).emissionRate = s.emissionRate := rfl

@[simp] theorem phaseSweep_emitter (dt : ℚ) (s : ParticleSystem) :
    (phaseSweep dt s).emitter = s.emitter := rfl

@[simp] theorem timePhase_currentTime (time dt : ℚ) (s : ParticleSystem) :
    (timePhase time dt s).currentTime = s.currentTime + dt := rfl

@[simp] theorem timePhase_previousTime (time dt : ℚ) (s : ParticleSystem) :
    (timePhase time dt s).previousTime = some time := rfl

@[simp] theorem timePhase_isComplete (time dt : ℚ) (s : ParticleSystem) :
    (timePhase time dt s).isComplete = s.isComplete := rfl

@[simp] theorem timePhase_completeRaisedCount (time dt : ℚ) (s : ParticleSystem) :
    (timePhase time dt s).completeRaisedCount = s.completeRaisedCount := rfl

@[simp] theorem timePhase_loop (time dt : ℚ) (s : ParticleSystem) :
    (timePhase time dt s).loop = s.loop := rfl

@[simp] theorem timePhase_lifetime (time dt : ℚ) (s : ParticleSystem) :
    (timePhase time dt s).lifetime = s.lifetime := rfl

@[simp] theorem timePhase_carryOver (time dt : ℚ) (s : ParticleSystem) :
    (timePhase time dt s).carryOver = s.carryOver := rfl

@[simp] theorem timePhase_bursts (time dt : ℚ) (s : ParticleSystem) :
    (timePhase time dt s).bursts = s.bursts := rfl

@[simp] theorem timePhase_particles (time dt : ℚ) (s : ParticleSystem) :
    (timePhase time dt s).particles = s.particles := rfl

@[simp] theorem timePhase_particlePool (time dt : ℚ) (s : ParticleSystem) :
    (timePhase time dt s).particlePool = s.particlePool := rfl

@[simp] theorem timePhase_emittedTotal (time dt : ℚ) (s : ParticleSystem) :
    (timePhase time dt s).emittedTotal = s.emittedTotal := rfl

@[simp] theorem timePhase_billboardCollection (time dt : ℚ) (s : ParticleSystem) :
    (timePhase time dt s).billboardCollection = s.billboardCollection := rfl

@[simp] theorem freeParticlePool_currentTime (s : ParticleSystem) :
    (freeParticlePool s).currentTime = s.currentTime := rfl

@[simp] theorem freeParticlePool_previousTime (s : ParticleSystem) :
    (freeParticlePool s).previousTime = s.previousTime := rfl

@[simp] theorem freeParticlePool_isComplete (s : ParticleSystem) :
    (freeParticlePool s).isComplete = s.isComplete := rfl

@[simp] theorem freeParticlePool_completeRaisedCount (s : ParticleSystem) :
    (freeParticlePool s).completeRaisedCount = s.completeRaisedCount := rfl

@[simp] theorem freeParticlePool_carryOver (s : ParticleSystem) :
    (freeParticlePool s).carryOver = s.carryOver := rfl

@[simp] theorem freeParticlePool_bursts (s : ParticleSystem) :
    (freeParticlePool s).bursts = s.bursts := rfl

@[simp] theorem freeParticlePool_particles (s : ParticleSystem) :
    (freeParticlePool s).particles = s.particles := rfl

@[simp] theorem freeParticlePool_emittedTotal (s : ParticleSystem) :
    (freeParticlePool s).emittedTotal = s.emittedTotal := rfl

@[simp] theorem matrixPhase_currentTime (s : ParticleSystem) :
    (matrixPhase s).currentTime = s.currentTime := by
  unfold matrixPhase; split <;> rfl

@[simp] theorem matrixPhase_isComplete (s : ParticleSystem) :
    (matrixPhase s).isComplete = s.isComplete := by
  unfold matrixPhase; split <;> rfl

@[simp] theorem matrixPhase_completeRaisedCount (s : ParticleSystem) :
    (matrixPhase s).completeRaisedCount = s.completeRaisedCount := by
  unfold matrixPhase; split <;> rfl

@[simp] theorem matrixPhase_loop (s : ParticleSystem) :
    (matrixPhase s).loop = s.loop := by
  unfold matrixPhase; split <;> rfl

@[simp] theorem matrixPhase_lifetime (s : ParticleSystem) :
    (matrixPhase s).lifetime = s.lifetime := by
  unfold matrixPhase; split <;> rfl

@[simp] theorem matrixPhase_carryOver (s : ParticleSystem) :
    (matrixPhase s).carryOver = s.carryOver := by
  unfold matrixPhase; split <;> rfl

@[simp] theorem matrixPhase_bursts (s : ParticleSystem) :
    (matrixPhase s).bursts = s.bursts := by
  unfold matrixPhase; split <;> rfl

@[simp] theorem matrixPhase_particles (s : ParticleSystem) :
    (matrixPhase s).particles = s.particles := by
  unfold matrixPhase; split <;> rfl

@[simp] theorem matrixPhase_emittedTotal (s : ParticleSystem) :
    (matrixPhase s).emittedTotal = s.emittedTotal := by
  unfold matrixPhase; split <;> rfl

@[simp] theorem emitOne_currentTime (e : Particle → Particle) (s : ParticleSystem) :
    (emitOne e s).currentTime = s.currentTime := rfl

@[simp] theorem emitOne_isComplete (e : Particle → Particle) (s : ParticleSystem) :
    (emitOne e s).isComplete = s.isComplete := rfl

@[simp] theorem emitOne_completeRaisedCount (e : Particle → Particle) (s : ParticleSystem) :
    (emitOne e s).completeRaisedCount = s.completeRaisedCount := rfl

@[simp] theorem emitOne_loop (e : Particle → Particle) (s : ParticleSystem) :
    (emitOne e s).loop = s.loop := rfl

@[simp] theorem emitOne_lifetime (e : Particle → Particle) (s : ParticleSystem) :
    (emitOne e s).lifetime = s.lifetime := rfl

@[simp] theorem emitOne_carryOver (e : Particle → Particle) (s : ParticleSystem) :
    (emitOne e s).carryOver = s.carryOver := rfl

@[simp] theorem emitOne_bursts (e : Particle → Particle) (s : ParticleSystem) :
    (emitOne e s).bursts = s.bursts := rfl

@[simp] theorem emitOne_emittedTotal (e : Particle → Particle) (s : ParticleSystem) :
    (emitOne e s).emittedTotal = s.emittedTotal + 1 := rfl

@[simp] theorem emitOne_particles_length (e : Particle → Particle) (s : ParticleSystem) :
    (emitOne e s).particles.length = s.particles.length + 1 := by
  show (s.particles ++ [_]).length = s.particles.length + 1
  simp

@[simp] theorem emitPhase_currentTime (e : Particle → Particle) (n : ℕ)
    (s : ParticleSystem) : (emitPhase e n s).currentTime = s.currentTime := by
  induction n generalizing s with
  | zero => rfl
  | succ n ih => rw [emitPhase, ih, emitOne_currentTime]

@[simp] theorem emitPhase_isComplete (e : Particle → Particle) (n : ℕ)
    (s : ParticleSystem) : (emitPhase e n s).isComplete = s.isComplete := by
  induction n generalizing s with
  | zero => rfl
  | succ n ih => rw [emitPhase, ih, emitOne_isComplete]

@[simp] theorem emitPhase_completeRaisedCount (e : Particle → Particle) (n : ℕ)
    (s : ParticleSystem) :
    (emitPhase e n s).completeRaisedCount = s.completeRaisedCount := by
  induction n generalizing s with
  | zero => rfl
  | succ n ih => rw [emitPhase, ih, emitOne_completeRaisedCount]

@[simp] theorem emitPhase_loop (e : Particle → Particle) (n : ℕ)
    (s : ParticleSystem) : (emitPhase e n s).loop = s.loop := by
  induction n generalizing s with
  | zero => rfl
  | succ n ih => rw [emitPhase, ih, emitOne_loop]

@[simp] theorem emitPhase_lifetime (e : Particle → Particle) (n : ℕ)
    (s : ParticleSystem) : (emitPhase e n s).lifetime = s.lifetime := by
  induction n generalizing s with
  | zero => rfl
  | succ n ih => rw [emitPhase, ih, emitOne_lifetime]

@[simp] theorem emitPhase_carryOver (e : Particle → Particle) (n : ℕ)
    (s : ParticleSystem) : (emitPhase e n s).carryOver = s.carryOver := by
  induction n generalizing s with
  | zero => rfl
  | succ n ih => rw [emitPhase, ih, emitOne_carryOver]

@[simp] theorem emitPhase_bursts (e : Particle → Particle) (n : ℕ)
    (s : ParticleSystem) : (emitPhase e n s).bursts = s.bursts := by
  induction n generalizing s with
  | zero => rfl
  | succ n ih => rw [emitPhase, ih, emitOne_bursts]

@[simp] theorem emitPhase_emittedTotal (e : Particle → Particle) (n : ℕ)
    (s : ParticleSystem) : (emitPhase e n s).emittedTotal = s.emittedTotal + n := by
  induction n generalizing s with
  | zero => rfl
  | succ n ih => rw [emitPhase, ih, emitOne_emittedTotal]; omega

@[simp] theorem emitPhase_particles_length (e : Particle → Particle) (n : ℕ)
    (s : ParticleSystem) :
    (emitPhase e n s).particles.length = s.particles.length + n := by
  induction n generalizing s with
  | zero => rfl
  | succ n ih => rw [emitPhase, ih, emitOne_particles_length]; omega

@[simp] theorem calc_fst_currentTime (s : ParticleSystem) (dt : ℚ) :
    (calculateNumberToEmit s dt).1.currentTime = s.currentTime := by
  unfold calculateNumberToEmit
  split
  · rfl
  · cases hb : s.bursts <;> simp [hb]

@[simp] theorem calc_fst_isComplete (s : ParticleSystem) (dt : ℚ) :
    (calculateNumberToEmit s dt).1.isComplete = s.isComplete := by
  unfold calculateNumberToEmit
  split
  · rfl
  · cases hb : s.bursts <;> simp [hb]

@[simp] theorem calc_fst_completeRaisedCount (s : ParticleSystem) (dt : ℚ) :
    (calculateNumberToEmit s dt).1.completeRaisedCount = s.completeRaisedCount := by
  unfold calculateNumberToEmit
  split
  · rfl
  · cases hb : s.bursts <;> simp [hb]

@[simp] theorem calc_fst_loop (s : ParticleSystem) (dt : ℚ) :
    (calculateNumberToEmit s dt).1.loop = s.loop := by
  unfold calculateNumberToEmit
  split
  · rfl
  · cases hb : s.bursts <;> simp [hb]

@[simp] theorem calc_fst_lifetime (s : ParticleSystem) (dt : ℚ) :
    (calculateNumberToEmit s dt).1.lifetime = s.lifetime := by
  unfold calculateNumberToEmit
  split
  · rfl
  · cases hb : s.bursts <;> simp [hb]

@[simp] theorem calc_fst_particles (s : ParticleSystem) (dt : ℚ) :
    (calculateNumberToEmit s dt).1.particles = s.particles := by
  unfold calculateNumberToEmit
  split
  · rfl
  · cases hb : s.bursts <;> simp [hb]

@[simp] theorem calc_fst_particlePool (s : ParticleSystem) (dt : ℚ) :
    (calculateNumberToEmit s dt).1.particlePool = s.particlePool := by
  unfold calculateNumberToEmit
  split
  · rfl
  · cases hb : s.bursts <;> simp [hb]

@[simp] theorem calc_fst_emittedTotal (s : ParticleSystem) (dt : ℚ) :
    (calculateNumberToEmit s dt).1.emittedTotal = s.emittedTotal := by
  unfold calculateNumberToEmit
  split
  · rfl
  · cases hb : s.bursts <;> simp [hb]

@[simp] theorem calc_fst_emitter (s : ParticleSystem) (dt : ℚ) :
    (calculateNumberToEmit s dt).1.emitter = s.emitter := by
  unfold calculateNumberToEmit
  split
  · rfl
  · cases hb : s.bursts <;> simp [hb]

@[simp] theorem calc_fst_billboardCollection (s : ParticleSystem) (dt : ℚ) :
    (calculateNumberToEmit s dt).1.billboardCollection = s.billboardCollection := by
  unfold calculateNumberToEmit
  split
  · rfl
  · cases hb : s.bursts <;> simp [hb]

/-- Generic observation preservation through the emission loop. -/
theorem emitPhase_proj {α : Type} (f : ParticleSystem → α)
    (hone : ∀ e t, f (emitOne e t) = f t) :
    ∀ (e : Particle → Particle) (n : ℕ) (t : ParticleSystem),
      f (emitPhase e n t) = f t := by
  intro e n
  induction n with
  | zero => intro t; rfl
  | succ n ih => intro t; rw [emitPhase, ih, hone]

/-- Generic observation preservation through the whole emission phase. -/
theorem phaseEmit_proj {α : Type} (dt : ℚ) (s : ParticleSystem) (f : ParticleSystem → α)
    (hcalc : f (calculateNumberToEmit s dt).1 = f s)
    (hmat : ∀ t, f (matrixPhase t) = f t)
    (hone : ∀ e t, f (emitOne e t) = f t) :
    f (phaseEmit dt s) = f s := by
  show f (match (calculateNumberToEmit s dt).1.emitter with
          | some e =>
            if 0 < (calculateNumberToEmit s dt).2 then
              emitPhase e (jsLoopCount (calculateNumberToEmit s dt).2)
                (matrixPhase (calculateNumberToEmit s dt).1)
            else (calculateNumberToEmit s dt).1
          | none => (calculateNumberToEmit s dt).1) = f s
  cases (calculateNumberToEmit s dt).1.emitter with
  | none => exact hcalc
  | some e =>
    show f (if 0 < (calculateNumberToEmit s dt).2 then
            emitPhase e (jsLoopCount (calculateNumberToEmit s dt).2)
              (matrixPhase (calculateNumberToEmit s dt).1)
          else (calculateNumberToEmit s dt).1) = f s
    by_cases h : 0 < (calculateNumberToEmit s dt).2
    · rw [if_pos h, emitPhase_proj f hone, hmat, hcalc]
    · rw [if_neg h]; exact hcalc

@[simp] theorem phaseEmit_currentTime (dt : ℚ) (s : ParticleSystem) :
    (phaseEmit dt s).currentTime = s.currentTime :=
  phaseEmit_proj dt s (fun t => t.currentTime) (calc_fst_currentTime s dt)
    (fun t => by unfold matrixPhase; split <;> rfl) (fun _ _ => rfl)

@[simp] theorem phaseEmit_previousTime (dt : ℚ) (s : ParticleSystem) :
    (phaseEmit dt s).previousTime = s.previousTime := by
  have hc : (calculateNumberToEmit s dt).1.previousTime = s.previousTime := by
    unfold calculateNumberToEmit
    split
    · rfl
    · cases hb : s.bursts <;> simp [hb]
  exact phaseEmit_proj dt s (fun t => t.previousTime) hc
    (fun t => by unfold matrixPhase; split <;> rfl) (fun _ _ => rfl)

@[simp] theorem phaseEmit_isComplete (dt : ℚ) (s : ParticleSystem) :
    (phaseEmit dt s).isComplete = s.isComplete :=
  phaseEmit_proj dt s (fun t => t.isComplete) (calc_fst_isComplete s dt)
    (fun t => by unfold matrixPhase; split <;> rfl) (fun _ _ => rfl)

@[simp] theorem phaseEmit_completeRaisedCount (dt : ℚ) (s : ParticleSystem) :
    (phaseEmit dt s).completeRaisedCount = s.completeRaisedCount :=
  phaseEmit_proj dt s (fun t => t.completeRaisedCount)
    (calc_fst_completeRaisedCount s dt)
    (fun t => by unfold matrixPhase; split <;> rfl) (fun _ _ => rfl)

@[simp] theorem phaseEmit_loop (dt : ℚ) (s : ParticleSystem) :
    (phaseEmit dt s).loop = s.loop :=
  phaseEmit_proj dt s (fun t => t.loop) (calc_fst_loop s dt)
    (fun t => by unfold matrixPhase; split <;> rfl) (fun _ _ => rfl)

@[simp] theorem phaseEmit_lifetime (dt : ℚ) (s : ParticleSystem) :
    (phaseEmit dt s).lifetime = s.lifetime :=
  phaseEmit_proj dt s (fun t => t.lifetime) (calc_fst_lifetime s dt)
    (fun t => by unfold matrixPhase; split <;> rfl) (fun _ _ => rfl)

@[simp] theorem lifetimePhase_carryOver (s : ParticleSystem) :
    (lifetimePhase s).carryOver = s.carryOver := by
  unfold lifetimePhase
  cases hl : s.lifetime with
  | none => rfl
  | some l =>
    by_cases hgt : l < s.currentTime <;> by_cases hlp : s.loop = true <;>
      cases hb : s.bursts <;> simp [hgt, hlp, hb]

@[simp] theorem lifetimePhase_emittedTotal (s : ParticleSystem) :
    (lifetimePhase s).emittedTotal = s.emittedTotal := by
  unfold lifetimePhase
  cases hl : s.lifetime with
  | none => rfl
  | some l =>
    by_cases hgt : l < s.currentTime <;> by_cases hlp : s.loop = true <;>
      cases hb : s.bursts <;> simp [hgt, hlp, hb]

@[simp] theorem lifetimePhase_particles (s : ParticleSystem) :
    (lifetimePhase s).particles = s.particles := by
  unfold lifetimePhase
  cases hl : s.lifetime with
  | none => rfl
  | some l =>
    by_cases hgt : l < s.currentTime <;> by_cases hlp : s.loop = true <;>
      cases hb : s.bursts <;> simp [hgt, hlp, hb]

@[simp] theorem lifetimePhase_particlePool (s : ParticleSystem) :
    (lifetimePhase s).particlePool = s.particlePool := by
  unfold lifetimePhase
  cases hl : s.lifetime with
  | none => rfl
  | some l =>
    by_cases hgt : l < s.currentTime <;> by_cases hlp : s.loop = true <;>
      cases hb : s.bursts <;> simp [hgt, hlp, hb]

@[simp] theorem lifetimePhase_billboardCollection (s : ParticleSystem) :
    (lifetimePhase s).billboardCollection = s.billboardCollection := by
  unfold lifetimePhase
  cases hl : s.lifetime with
  | none => rfl
  | some l =>
    by_cases hgt : l < s.currentTime <;> by_cases hlp : s.loop = true <;>
      cases hb : s.bursts <;> simp [hgt, hlp, hb]

/-- The frame delta only reads the previous frame time. -/
theorem frameDt_congr (s s' : ParticleSystem) (time : ℚ)
    (h : s.previousTime = s'.previousTime) : frameDt s time = frameDt s' time := by
  unfold frameDt; rw [h]

/-- The frame delta is clamped to be nonnegative. -/
theorem frameDt_nonneg (s : ParticleSystem) (time : ℚ) : 0 ≤ frameDt s time := by
  unfold frameDt
  cases s.previousTime with
  | none => simp
  | some t =>
    by_cases h : time - t < 0
    · simp [h]
    · simp only [if_neg h]; linarith [not_lt.mp h]

/-- A frame time at or before the remembered one yields `dt = 0` (clock regression is
clamped). -/
theorem frameDt_of_regress (s : ParticleSystem) (time t0 : ℚ)
    (h : s.previousTime = some t0) (hle : time ≤ t0) : frameDt s time = 0 := by
  unfold frameDt
  rw [h]
  by_cases hlt : time - t0 < 0
  · simp [hlt]
  · have : time - t0 = 0 := by linarith [not_lt.mp hlt]
    simp [this]

/-- The first update call (no remembered frame time) has `dt = 0`. -/
theorem frameDt_of_first (s : ParticleSystem) (time : ℚ)
    (h : s.previousTime = none) : frameDt s time = 0 := by
  unfold frameDt; rw [h]; simp

/-- A shown update is `updateCore` plus the 120-frame pool sweep. -/
theorem update_eq_of_shown (s : ParticleSystem) (time : ℚ) (fn : ℕ)
    (h : s.shown = true) :
    ParticleSystem.update s time fn =
      if fn % 120 = 0 then freeParticlePool (updateCore s time)
      else updateCore s time := by
  unfold ParticleSystem.update updateCore
  rw [if_neg (by rw [h]; simp)]

/-- A hidden system's update is a complete no-op (source lines 705-707). -/
theorem update_eq_of_hidden (s : ParticleSystem) (time : ℚ) (fn : ℕ)
    (h : s.shown = false) : ParticleSystem.update s time fn = s := by
  unfold ParticleSystem.update
  rw [if_pos h]

/-- On an infinite lifetime the lifetime phase is the identity. -/
theorem lifetimePhase_of_none (s : ParticleSystem) (hl : s.lifetime = none) :
    lifetimePhase s = s := by
  unfold lifetimePhase; rw [hl]

/-- While the elapsed time has not passed the lifetime, the lifetime phase is the
identity. -/
theorem lifetimePhase_of_le (s : ParticleSystem) (l : ℚ) (hl : s.lifetime = some l)
    (hle : ¬ l < s.currentTime) : lifetimePhase s = s := by
  unfold lifetimePhase; rw [hl]; simp [hle]

/-- The looping wrap branch: elapsed time wraps modulo the lifetime, every burst's fired
flag resets, and neither `isComplete` nor the completion-event count changes. -/
theorem lifetimePhase_loop_wrap (s : ParticleSystem) (l : ℚ) (hl : s.lifetime = some l)
    (hgt : l < s.currentTime) (hloop : s.loop = true) :
    (lifetimePhase s).currentTime = qmod s.currentTime l
    ∧ (lifetimePhase s).isComplete = s.isComplete
    ∧ (lifetimePhase s).completeRaisedCount = s.completeRaisedCount
    ∧ (lifetimePhase s).bursts
        = s.bursts.map (fun bl => bl.map (fun b => { b with complete := false })) := by
  unfold lifetimePhase
  rw [hl]
  simp [hgt, hloop]

/-- The non-looping completion branch: `isComplete` is set and the completion event is
raised (the source does this unconditionally, whether or not `isComplete` already
held). -/
theorem lifetimePhase_complete_raise (s : ParticleSystem) (l : ℚ)
    (hl : s.lifetime = some l) (hgt : l < s.currentTime) (hloop : s.loop = false) :
    lifetimePhase s =
      { s with isComplete := true,
               completeRaisedCount := s.completeRaisedCount + 1 } := by
  unfold lifetimePhase
  rw [hl]
  simp [hgt, hloop]

/-- A complete system's scheduler returns 0 and changes nothing (source lines
667-670). -/
theorem calc_of_complete (s : ParticleSystem) (dt : ℚ) (h : s.isComplete = true) :
    calculateNumberToEmit s dt = (s, 0) := by
  unfold calculateNumberToEmit
  rw [if_pos h]

/-- One scheduler call keeps the carry-over inside `[0, 1]`: the fractional part added is
in `[0, 1)`, and a carry above 1 pays out one whole particle. -/
theorem calc_carryOver_bound (s : ParticleSystem) (dt : ℚ)
    (h0 : 0 ≤ s.carryOver) (h1 : s.carryOver ≤ 1) :
    0 ≤ (calculateNumberToEmit s dt).1.carryOver
    ∧ (calculateNumberToEmit s dt).1.carryOver ≤ 1 := by
  unfold calculateNumberToEmit
  split
  · exact ⟨h0, h1⟩
  · set v := wrapDt dt s.lifetime * s.emissionRate with hv
    have hf0 : (0:ℚ) ≤ v - (⌊v⌋:ℚ) := by
      have h := Int.fract_nonneg v
      rwa [Int.fract] at h
    have hf1 : v - (⌊v⌋:ℚ) < 1 := by
      have h := Int.fract_lt_one v
      rwa [Int.fract] at h
    have key : 0 ≤ (if 1 < s.carryOver + (v - (⌊v⌋:ℚ))
          then s.carryOver + (v - (⌊v⌋:ℚ)) - 1 else s.carryOver + (v - (⌊v⌋:ℚ)))
        ∧ (if 1 < s.carryOver + (v - (⌊v⌋:ℚ))
          then s.carryOver + (v - (⌊v⌋:ℚ)) - 1 else s.carryOver + (v - (⌊v⌋:ℚ))) ≤ 1 := by
      by_cases hgt : 1 < s.carryOver + (v - (⌊v⌋:ℚ))
      · rw [if_pos hgt]
        constructor <;> linarith
      · rw [if_neg hgt]
        push_neg at hgt
        constructor <;> linarith
    cases hb : s.bursts with
    | none => exact key
    | some bl => exact key

/-- Generic observation of the emission phase in terms of the scheduler's output state. -/
theorem phaseEmit_proj_calc {α : Type} (dt : ℚ) (s : ParticleSystem)
    (f : ParticleSystem → α)
    (hmat : ∀ t, f (matrixPhase t) = f t)
    (hone : ∀ e t, f (emitOne e t) = f t) :
    f (phaseEmit dt s) = f (calculateNumberToEmit s dt).1 := by
  show f (match (calculateNumberToEmit s dt).1.emitter with
          | some e =>
            if 0 < (calculateNumberToEmit s dt).2 then
              emitPhase e (jsLoopCount (calculateNumberToEmit s dt).2)
                (matrixPhase (calculateNumberToEmit s dt).1)
            else (calculateNumberToEmit s dt).1
          | none => (calculateNumberToEmit s dt).1) = _
  cases (calculateNumberToEmit s dt).1.emitter with
  | none => rfl
  | some e =>
    show f (if 0 < (calculateNumberToEmit s dt).2 then
            emitPhase e (jsLoopCount (calculateNumberToEmit s dt).2)
              (matrixPhase (calculateNumberToEmit s dt).1)
          else (calculateNumberToEmit s dt).1) = _
    by_cases h : 0 < (calculateNumberToEmit s dt).2
    · rw [if_pos h, emitPhase_proj f hone, hmat]
    · rw [if_neg h]

@[simp] theorem phaseEmit_carryOver (dt : ℚ) (s : ParticleSystem) :
    (phaseEmit dt s).carryOver = (calculateNumberToEmit s dt).1.carryOver :=
  phaseEmit_proj_calc dt s (fun t => t.carryOver)
    (fun t => by unfold matrixPhase; split <;> rfl) (fun _ _ => rfl)

/-- The carry-over bound holds across one full shown-or-hidden update call. -/
theorem update_carryOver_bound (s : ParticleSystem) (time : ℚ) (fn : ℕ)
    (h0 : 0 ≤ s.carryOver) (h1 : s.carryOver ≤ 1) :
    0 ≤ (ParticleSystem.update s time fn).carryOver
    ∧ (ParticleSystem.update s time fn).carryOver ≤ 1 := by
  have hcore : 0 ≤ (updateCore s time).carryOver
      ∧ (updateCore s time).carryOver ≤ 1 := by
    unfold updateCore
    rw [lifetimePhase_carryOver, timePhase_carryOver, phaseEmit_carryOver]
    exact calc_carryOver_bound _ _ (by simpa using h0) (by simpa using h1)
  cases hs : s.shown with
  | false => rw [update_eq_of_hidden s time fn hs]; exact ⟨h0, h1⟩
  | true =>
    rw [update_eq_of_shown s time fn hs]
    by_cases h120 : fn % 120 = 0
    · rw [if_pos h120, freeParticlePool_carryOver]; exact hcore
    · rw [if_neg h120]; exact hcore

/-- A live particle (with `age ≤ life`) survives a zero-`dt` step with no update hook. -/
theorem Particle.update_zero_alive (p : Particle) (hp : p.age ≤ p.life) :
    Particle.update p 0 none = ({ p with normalizedAge := clampQ (p.age / p.life) 0 1 }, true) := by
  unfold Particle.update
  have hnot : ¬ p.life < p.age := not_lt.mpr hp
  simp [add_zero, hnot, Cart3.add, Cart3.smul]

/-- Unfolding equation of the sweep on an empty slot range. -/
theorem sweepAux_nil (dt : ℚ) (hook : Option (Particle → ℚ → Particle)) (sim : Bool)
    (fuel : ℕ) (bc : BillboardCollection) :
    sweepAux dt hook sim fuel [] bc = ([], [], bc) := by
  cases fuel <;> rfl

/-- Unfolding equation of the sweep on a nonempty slot range. -/
theorem sweepAux_cons (dt : ℚ) (hook : Option (Particle → ℚ → Particle)) (sim : Bool)
    (fuel : ℕ) (p : Particle) (rest : List Particle) (bc : BillboardCollection) :
    sweepAux dt hook sim (fuel + 1) (p :: rest) bc =
      (let pu := Particle.update p dt hook
       if pu.2 then
         let ub := updateBillboard sim bc pu.1
         let r := sweepAux dt hook sim fuel rest ub.2
         (ub.1 :: r.1, r.2.1, r.2.2)
       else
         let bc1 := hideBillboard bc pu.1
         match rest.reverse with
         | [] => ([], [pu.1], bc1)
         | lastp :: revFront =>
           let r := sweepAux dt hook sim fuel (lastp :: revFront.reverse) bc1
           (r.1, pu.1 :: r.2.1, r.2.2)) := rfl

/-- At `dt = 0` with no hook, the sweep retires nothing and keeps every live particle. -/
theorem sweepAux_zero (sim : Bool) (ps : List Particle) :
    ∀ (bc : BillboardCollection), (∀ p ∈ ps, p.age ≤ p.life) →
      (sweepAux 0 none sim ps.length ps bc).2.1 = []
      ∧ (sweepAux 0 none sim ps.length ps bc).1.length = ps.length := by
  induction ps with
  | nil => intro bc _; exact ⟨rfl, rfl⟩
  | cons p rest ih =>
    intro bc hps
    have hp := hps p (List.mem_cons_self _ _)
    have halive := Particle.update_zero_alive p hp
    have hrest : ∀ q ∈ rest, q.age ≤ q.life := fun q hq => hps q (List.mem_cons_of_mem _ hq)
    have hr := ih (updateBillboard sim bc
      { p with normalizedAge := clampQ (p.age / p.life) 0 1 }).2 hrest
    rw [List.length_cons, sweepAux_cons, halive]
    simp [hr.1, hr.2]

/-- A single burst either fires (when unfired and its time lies strictly before the
current elapsed time), adding exactly its `minimum = maximum` count, or is left
untouched. -/
theorem runBursts_single (rand : ℕ → ℚ) (ct : ℚ) (idx : ℕ) (acc τ n : ℚ) (b : Bool) :
    runBursts rand ct idx acc [⟨τ, n, n, b⟩]
      = if b = false ∧ τ < ct then (idx + 1, acc + n, [⟨τ, n, n, true⟩])
        else (idx, acc, [⟨τ, n, n, b⟩]) := by
  by_cases hc : b = false ∧ τ < ct
  · simp [runBursts, hc, randomBetween]
  · simp [runBursts, hc]

/-- The JS emission loop runs a whole number of times on a whole bound. -/
theorem jsLoopCount_natCast (n : ℕ) : jsLoopCount (n : ℚ) = n := by
  unfold jsLoopCount
  rw [Int.ceil_natCast]
  simp

/-- The scheduler on a zero-rate system with zero carry and one `min = max = n` burst:
the count is `n` exactly when the burst fires, the carry stays 0, and the fired flag is
set exactly on firing. -/
theorem calc_single_burst (s : ParticleSystem) (dt τ : ℚ) (n : ℚ) (b : Bool)
    (hic : s.isComplete = false) (hrate : s.emissionRate = 0) (hco : s.carryOver = 0)
    (hb : s.bursts = some [⟨τ, n, n, b⟩]) :
    (calculateNumberToEmit s dt).2 = (if b = false ∧ τ < s.currentTime then n else 0)
    ∧ (calculateNumberToEmit s dt).1.carryOver = 0
    ∧ (calculateNumberToEmit s dt).1.bursts
        = some [⟨τ, n, n, if b = false ∧ τ < s.currentTime then true else b⟩] := by
  unfold calculateNumberToEmit
  rw [if_neg (by rw [hic]; simp)]
  rw [hb]
  simp only [hrate, mul_zero, Int.floor_zero, Int.cast_zero, sub_zero, add_zero, hco]
  rw [if_neg (by norm_num)]
  rw [runBursts_single]
  by_cases hc : b = false ∧ τ < s.currentTime
  · simp [hc]
  · simp [hc]

/-- Emission-phase effect when the scheduler reports a whole count `n` and an emitter is
configured: exactly `n` particles are pushed and counted, and the scheduler's burst and
carry bookkeeping is passed through. -/
theorem phaseEmit_counts (dt : ℚ) (s : ParticleSystem) (e : Particle → Particle) (n : ℕ)
    (he : s.emitter = some e) (hcount : (calculateNumberToEmit s dt).2 = (n : ℚ)) :
    (phaseEmit dt s).emittedTotal = s.emittedTotal + n
    ∧ (phaseEmit dt s).particles.length = s.particles.length + n
    ∧ (phaseEmit dt s).bursts = (calculateNumberToEmit s dt).1.bursts
    ∧ (phaseEmit dt s).carryOver = (calculateNumberToEmit s dt).1.carryOver := by
  have he' : (calculateNumberToEmit s dt).1.emitter = some e :=
    (calc_fst_emitter s dt).trans he
  have hPE : phaseEmit dt s
      = if 0 < (calculateNumberToEmit s dt).2 then
          emitPhase e (jsLoopCount (calculateNumberToEmit s dt).2)
            (matrixPhase (calculateNumberToEmit s dt).1)
        else (calculateNumberToEmit s dt).1 := by
    show (match (calculateNumberToEmit s dt).1.emitter with
          | some e =>
            if 0 < (calculateNumberToEmit s dt).2 then
              emitPhase e (jsLoopCount (calculateNumberToEmit s dt).2)
                (matrixPhase (calculateNumberToEmit s dt).1)
            else (calculateNumberToEmit s dt).1
          | none => (calculateNumberToEmit s dt).1) = _
    rw [he']
  rw [hPE]
  by_cases hn : 0 < (calculateNumberToEmit s dt).2
  · have hn' : 0 < n := by
      by_contra hz
      have : n = 0 := by omega
      rw [this] at hcount
      rw [hcount] at hn
      simp at hn
    rw [if_pos hn, hcount, jsLoopCount_natCast]
    have hmatE : ∀ t, (matrixPhase t).emittedTotal = t.emittedTotal := fun t => by
      unfold matrixPhase; split <;> rfl
    have hmatP : ∀ t, (matrixPhase t).particles = t.particles := fun t => by
      unfold matrixPhase; split <;> rfl
    have hmatB : ∀ t, (matrixPhase t).bursts = t.bursts := fun t => by
      unfold matrixPhase; split <;> rfl
    have hmatC : ∀ t, (matrixPhase t).carryOver = t.carryOver := fun t => by
      unfold matrixPhase; split <;> rfl
    refine ⟨?_, ?_, ?_, ?_⟩
    · rw [emitPhase_emittedTotal, hmatE, calc_fst_emittedTotal]
    · rw [emitPhase_particles_length, hmatP, calc_fst_particles]
    · rw [emitPhase_bursts, hmatB]
    · rw [emitPhase_carryOver, hmatC]
  · have hn' : n = 0 := by
      by_contra hz
      have hpos : 0 < n := Nat.pos_of_ne_zero hz
      apply hn
      rw [hcount]
      exact_mod_cast hpos
    rw [if_neg hn]
    subst hn'
    exact ⟨by rw [calc_fst_emittedTotal]; rfl, by rw [calc_fst_particles]; rfl, rfl, rfl⟩

/-- The wrapped frame delta of a zero delta is zero for every lifetime. -/
theorem wrapDt_zero (l : Option ℚ) : wrapDt 0 l = 0 := by
  cases l with
  | none => rfl
  | some v => show qmod 0 v = 0; unfold qmod; simp

/-- The scheduler at `dt = 0`: the rate term contributes nothing, so with no bursts the
call returns the state unchanged and the count 0. -/
theorem calc_zero_dt (s : ParticleSystem) (hcarry : s.carryOver ≤ 1) :
    (calculateNumberToEmit s 0).1.carryOver = s.carryOver
    ∧ (s.bursts = none → calculateNumberToEmit s 0 = (s, 0)) := by
  unfold calculateNumberToEmit
  by_cases hic : s.isComplete = true
  · rw [if_pos hic]
    exact ⟨rfl, fun _ => rfl⟩
  · rw [if_neg hic]
    simp only [wrapDt_zero, zero_mul, Int.floor_zero, Int.cast_zero, sub_zero, add_zero,
      not_lt.mpr hcarry, if_false]
    constructor
    · cases hb : s.bursts with
      | none => rfl
      | some bl => simp [hb]
    · intro hb
      simp only [hb]
      rw [← hb]

/-- If the scheduler returns count 0 and an unchanged state, the emission phase is the
identity. -/
theorem phaseEmit_of_zero (dt : ℚ) (s : ParticleSystem)
    (h : calculateNumberToEmit s dt = (s, 0)) : phaseEmit dt s = s := by
  show (match (calculateNumberToEmit s dt).1.emitter with
        | some e =>
          if 0 < (calculateNumberToEmit s dt).2 then
            emitPhase e (jsLoopCount (calculateNumberToEmit s dt).2)
              (matrixPhase (calculateNumberToEmit s dt).1)
          else (calculateNumberToEmit s dt).1
        | none => (calculateNumberToEmit s dt).1) = s
  rw [h]
  cases s.emitter with
  | none => rfl
  | some e => simp

/-- When the collection already exists, the lazy-creation phase is the identity. -/
theorem ensurePhase_of_some (s : ParticleSystem) (bc0 : BillboardCollection)
    (h : s.billboardCollection = some bc0) : ensurePhase s = s := by
  unfold ensurePhase bcOf
  rw [h]
  rw [show (some bc0).getD BillboardCollection.empty = bc0 from rfl, ← h]

/-- When no resize is pending, the pool phase is the identity. -/
theorem poolPhase_of_flag_false (s : ParticleSystem)
    (h : s.updateParticlePoolFlag = false) : poolPhase s = s := by
  unfold poolPhase
  rw [h]
  simp

/-- `isComplete`, once true, survives the lifetime phase. -/
theorem lifetimePhase_isComplete_mono (s : ParticleSystem) (h : s.isComplete = true) :
    (lifetimePhase s).isComplete = true := by
  unfold lifetimePhase
  cases hl : s.lifetime with
  | none => exact h
  | some l =>
    by_cases hgt : l < s.currentTime <;> by_cases hlp : s.loop = true <;>
      simp [hgt, hlp, h]

/-- A looping system's lifetime phase never raises the completion event. -/
theorem lifetimePhase_raised_of_loop (s : ParticleSystem) (h : s.loop = true) :
    (lifetimePhase s).completeRaisedCount = s.completeRaisedCount := by
  unfold lifetimePhase
  cases hl : s.lifetime with
  | none => rfl
  | some l =>
    by_cases hgt : l < s.currentTime <;> simp [hgt, h]

/-- A non-looping system's lifetime phase never changes the elapsed time. -/
theorem lifetimePhase_currentTime_of_loop_false (s : ParticleSystem)
    (h : s.loop = false) : (lifetimePhase s).currentTime = s.currentTime := by
  unfold lifetimePhase
  cases hl : s.lifetime with
  | none => rfl
  | some l =>
    by_cases hgt : l < s.currentTime <;> simp [hgt, h]

@[simp] theorem freeParticlePool_particleEstimate (s : ParticleSystem) :
    (freeParticlePool s).particleEstimate = s.particleEstimate := rfl

@[simp] theorem timePhase_particleEstimate (time dt : ℚ) (s : ParticleSystem) :
    (timePhase time dt s).particleEstimate = s.particleEstimate := rfl

@[simp] theorem phaseSweep_particleEstimate (dt : ℚ) (s : ParticleSystem) :
    (phaseSweep dt s).particleEstimate = s.particleEstimate := rfl

@[simp] theorem calc_fst_particleEstimate (s : ParticleSystem) (dt : ℚ) :
    (calculateNumberToEmit s dt).1.particleEstimate = s.particleEstimate := by
  unfold calculateNumberToEmit
  split
  · rfl
  · cases hb : s.bursts <;> simp [hb]

@[simp] theorem phaseEmit_particleEstimate (dt : ℚ) (s : ParticleSystem) :
    (phaseEmit dt s).particleEstimate = s.particleEstimate :=
  (phaseEmit_proj_calc dt s (fun t => t.particleEstimate)
    (fun t => by unfold matrixPhase; split <;> rfl) (fun _ _ => rfl)).trans
    (calc_fst_particleEstimate s dt)

@[simp] theorem lifetimePhase_particleEstimate (s : ParticleSystem) :
    (lifetimePhase s).particleEstimate = s.particleEstimate := by
  unfold lifetimePhase
  cases hl : s.lifetime with
  | none => rfl
  | some l =>
    by_cases hgt : l < s.currentTime <;> by_cases hlp : s.loop = true <;>
      simp [hgt, hlp]

/-- With a pending resize, the pool phase installs the freshly computed estimate. -/
theorem poolPhase_particleEstimate_of_flag (s : ParticleSystem)
    (h : s.updateParticlePoolFlag = true) :
    (poolPhase s).particleEstimate = estimateOf s := by
  unfold poolPhase
  rw [h]
  simp only [if_true]
  rfl

/-- Existing lookups survive an `add` (fresh handles are appended on the right and
`find?` scans from the left). -/
theorem BillboardCollection.find_add (bc : BillboardCollection) (b : Billboard) (h : ℕ)
    (x : Billboard) (hf : bc.find h = some x) : (bc.add b).1.find h = some x := by
  unfold BillboardCollection.find at hf ⊢
  unfold BillboardCollection.add
  rcases ho : bc.entries.find? (fun e => decide (e.1 = h)) with _ | e0
  · rw [ho] at hf; simp at hf
  · rw [ho] at hf
    simp only [List.find?_append, ho]
    exact hf

/-- A fresh `add` on a well-formed collection is found behind its returned handle. -/
theorem BillboardCollection.find_add_self (bc : BillboardCollection) (b : Billboard)
    (hwf : ∀ e ∈ bc.entries, e.1 < bc.nextId) :
    (bc.add b).1.find (bc.add b).2 = some b := by
  unfold BillboardCollection.add BillboardCollection.find
  simp only [List.find?_append]
  have hnone : bc.entries.find? (fun e => decide (e.1 = bc.nextId)) = none := by
    rw [List.find?_eq_none]
    intro e he
    simp only [decide_eq_true_eq]
    exact fun hh => absurd (hh ▸ hwf e he) (lt_irrefl _)
  rw [hnone]
  simp [Option.or]

/-- `add` keeps every handle strictly below the next fresh one. -/
theorem BillboardCollection.add_wf (bc : BillboardCollection) (b : Billboard)
    (hwf : ∀ e ∈ bc.entries, e.1 < bc.nextId) :
    ∀ e ∈ (bc.add b).1.entries, e.1 < (bc.add b).1.nextId := by
  intro e he
  unfold BillboardCollection.add at he ⊢
  simp only [List.mem_append, List.mem_singleton] at he
  show e.1 < bc.nextId + 1
  rcases he with he | he
  · exact lt_trans (hwf e he) (Nat.lt_succ_self _)
  · rw [he]; exact Nat.lt_succ_self _

/-- Lookups established before the allocation loop survive it. -/
theorem addNewParticles_find_mono (img : Option ℕ) :
    ∀ (n : ℕ) (pb : List Particle × BillboardCollection) (h : ℕ) (x : Billboard),
      pb.2.find h = some x → (addNewParticles img n pb).2.find h = some x := by
  intro n
  induction n with
  | zero => intro pb h x hf; exact hf
  | succ n ih =>
    intro pb h x hf
    show (addNewParticles img n
      (pb.1 ++ [{ Particle.fresh with
        billboard := some (pb.2.add { Billboard.default with image := img, shown := false }).2 }],
       (pb.2.add { Billboard.default with image := img, shown := false }).1)).2.find h = some x
    exact ih _ h x (BillboardCollection.find_add _ _ _ _ hf)

/-- The allocation loop of `updateParticlePool`: it appends exactly `n` new particles,
keeps the collection well-formed, and registers each new particle behind a billboard
that is present and hidden in the final collection. -/
theorem addNewParticles_spec (img : Option ℕ) :
    ∀ (n : ℕ) (pb : List Particle × BillboardCollection),
      (∀ e ∈ pb.2.entries, e.1 < pb.2.nextId) →
      ∃ news : List Particle,
        (addNewParticles img n pb).1 = pb.1 ++ news
        ∧ news.length = n
        ∧ (∀ e ∈ (addNewParticles img n pb).2.entries,
            e.1 < (addNewParticles img n pb).2.nextId)
        ∧ ∀ p ∈ news, ∃ h, p.billboard = some h
            ∧ ∃ b, (addNewParticles img n pb).2.find h = some b ∧ b.shown = false := by
  intro n
  induction n with
  | zero =>
    intro pb hwf
    exact ⟨[], by simp [addNewParticles], rfl, hwf, by simp⟩
  | succ n ih =>
    intro pb hwf
    have hstep : addNewParticles img (n + 1) pb
        = addNewParticles img n
            (pb.1 ++ [{ Particle.fresh with
              billboard := some (pb.2.add
                { Billboard.default with image := img, shown := false }).2 }],
             (pb.2.add { Billboard.default with image := img, shown := false }).1) := rfl
    have hwf' := BillboardCollection.add_wf pb.2
      { Billboard.default with image := img, shown := false } hwf
    obtain ⟨news, h1, h2, h3, h4⟩ := ih
      (pb.1 ++ [{ Particle.fresh with
        billboard := some (pb.2.add
          { Billboard.default with image := img, shown := false }).2 }],
       (pb.2.add { Billboard.default with image := img, shown := false }).1) hwf'
    refine ⟨{ Particle.fresh with
      billboard := some (pb.2.add
        { Billboard.default with image := img, shown := false }).2 } :: news, ?_, ?_, ?_, ?_⟩
    · rw [hstep, h1]; simp
    · simp [h2]
    · rw [hstep]; exact h3
    · intro p hp
      rcases List.mem_cons.mp hp with hp | hp
      · subst hp
        refine ⟨(pb.2.add { Billboard.default with image := img, shown := false }).2,
          rfl, { Billboard.default with image := img, shown := false }, ?_, rfl⟩
        rw [hstep]
        exact addNewParticles_find_mono img n _ _ _
          (BillboardCollection.find_add_self pb.2 _ hwf)
      · obtain ⟨h, hb, b, hfind, hshown⟩ := h4 p hp
        exact ⟨h, hb, b, by rw [hstep]; exact hfind, hshown⟩

/-! Claim theorems. -/

/-- C8: with `show = false`, a call to `update` is a complete no-op: the state — every
field, live particle, pool entry and billboard — is returned unchanged, and elapsed time
does not advance. -/
theorem C8_hidden_noop (s : ParticleSystem) (time : ℚ) (fn : ℕ)
    (h : s.shown = false) : ParticleSystem.update s time fn = s := by
  unfold ParticleSystem.update
  rw [if_pos h]

/-- Witness for C8 at a concrete hidden system. -/
theorem C8_hidden_noop_witness :
    sysHidden.shown = false ∧ ParticleSystem.update sysHidden 3 4 = sysHidden :=
  ⟨rfl, C8_hidden_noop sysHidden 3 4 rfl⟩

/-- C3: the claim fails on the code.  At a state whose pool (5 entries) exceeds the
capacity estimate (2) beyond what the live count (0) requires by 3, the 120th-frame
shrink `freeParticlePool` removes nothing: the pool keeps its 5 entries and all 5
billboards stay in the collection, because the source computes the removal count as
`max(estimate - live - pool, 0)` — the pool's deficit, not its excess — contradicting
the claim and the call-site comment "free particles in the pool and release billboard
GPU memory". -/
theorem C3_shrink_never_frees :
    sysPoolExcess.particleEstimate = 2
    ∧ sysPoolExcess.particles.length = 0
    ∧ sysPoolExcess.particlePool.length = 5
    ∧ (freeParticlePool sysPoolExcess).particlePool.length = 5
    ∧ ((freeParticlePool sysPoolExcess).billboardCollection.getD
        BillboardCollection.empty).entries.length = 5 :=
  of_decide_eq_true (by with_unfolding_all rfl)

/-- C2 counterexample: the carry-over reaches exactly 1.  With emission rate 1/2 and two
unit-length frames, each frame adds the fractional part 1/2; after the second frame the
accumulator holds exactly 1, which the source's strict `carryOver > 1.0` test does not
pay out, so `carryOver < 1` fails. -/
theorem C2_counterexample :
    (runUpdates sysHalfRate [(0, 1), (1, 2), (2, 3)]).carryOver = 1
    ∧ ¬ (runUpdates sysHalfRate [(0, 1), (1, 2), (2, 3)]).carryOver < 1 :=
  of_decide_eq_true (by with_unfolding_all rfl)

/-- C2 (amended): for every sequence of update calls from a state whose carry-over lies
in `[0, 1]` — in particular from a freshly constructed system, where it is 0 — the
fractional carry-over accumulator satisfies `0 ≤ carryOver ≤ 1` after every update (the
bound 1 is attained, so the claimed strict `< 1` is corrected to `≤ 1`). -/
theorem C2_carryOver_amended (s : ParticleSystem) (frames : List (ℚ × ℕ))
    (h0 : 0 ≤ s.carryOver) (h1 : s.carryOver ≤ 1) :
    0 ≤ (runUpdates s frames).carryOver ∧ (runUpdates s frames).carryOver ≤ 1 := by
  induction frames generalizing s with
  | nil => exact ⟨h0, h1⟩
  | cons f rest ih =>
    have hstep := update_carryOver_bound s f.1 f.2 h0 h1
    exact ih (ParticleSystem.update s f.1 f.2) hstep.1 hstep.2

/-- Witness for C2 (amended) on a concrete run that attains the bound. -/
theorem C2_carryOver_amended_witness :
    0 ≤ (runUpdates sysHalfRate [(0, 1), (1, 2), (2, 3)]).carryOver
    ∧ (runUpdates sysHalfRate [(0, 1), (1, 2), (2, 3)]).carryOver ≤ 1 :=
  C2_carryOver_amended sysHalfRate [(0, 1), (1, 2), (2, 3)]
    (of_decide_eq_true (by with_unfolding_all rfl))
    (of_decide_eq_true (by with_unfolding_all rfl))

/-- C1 counterexample: the completion event is not raised exactly once.  On the
non-looping lifetime-1 system, the second update (elapsed 2 > 1) completes the system
and raises the event; the third update, with the system already complete, raises it
again, because the source re-enters the completion branch whenever
`currentTime > lifetime`. -/
theorem C1_counterexample :
    (runUpdates sysNonLoop [(0, 1), (2, 2)]).isComplete = true
    ∧ (runUpdates sysNonLoop [(0, 1), (2, 2)]).completeRaisedCount = 1
    ∧ (runUpdates sysNonLoop [(0, 1), (2, 2), (4, 3)]).completeRaisedCount = 2 :=
  of_decide_eq_true (by with_unfolding_all rfl)

/-- C1 (amended): for a non-looping finite-lifetime system, once elapsed time exceeds
the lifetime `isComplete` becomes true and remains true forever, and the completion
event is raised at that update and again at every later shown update whose elapsed time
is still past the lifetime (not exactly once); looping systems never raise it. -/
theorem C1_completion_amended (s : ParticleSystem) (time : ℚ) (fn : ℕ) :
    (s.isComplete = true → (ParticleSystem.update s time fn).isComplete = true)
    ∧ (s.loop = true →
        (ParticleSystem.update s time fn).completeRaisedCount = s.completeRaisedCount)
    ∧ (∀ l : ℚ, s.shown = true → s.loop = false → s.lifetime = some l →
        l < s.currentTime + frameDt s time →
        (ParticleSystem.update s time fn).isComplete = true
        ∧ (ParticleSystem.update s time fn).completeRaisedCount
            = s.completeRaisedCount + 1) := by
  cases hs : s.shown with
  | false =>
    rw [update_eq_of_hidden s time fn hs]
    refine ⟨fun h => h, fun _ => rfl, fun l hsh _ _ _ => ?_⟩
    exact Bool.noConfusion hsh
  | true =>
    rw [update_eq_of_shown s time fn hs]
    unfold updateCore
    set dt := frameDt (poolPhase (ensurePhase s)) time with hdt
    set Y := timePhase time dt (phaseEmit dt (phaseSweep dt (poolPhase (ensurePhase s))))
      with hY
    have hdts : dt = frameDt s time := by
      rw [hdt]; exact frameDt_congr _ _ _ (by simp)
    have hYic : Y.isComplete = s.isComplete := by rw [hY]; simp
    have hYlp : Y.loop = s.loop := by rw [hY]; simp
    have hYlt : Y.lifetime = s.lifetime := by rw [hY]; simp
    have hYrc : Y.completeRaisedCount = s.completeRaisedCount := by rw [hY]; simp
    have hYct : Y.currentTime = s.currentTime + dt := by rw [hY]; simp
    have hwrapIC : (if fn % 120 = 0 then freeParticlePool (lifetimePhase Y)
        else lifetimePhase Y).isComplete = (lifetimePhase Y).isComplete := by
      split <;> simp
    have hwrapRC : (if fn % 120 = 0 then freeParticlePool (lifetimePhase Y)
        else lifetimePhase Y).completeRaisedCount
        = (lifetimePhase Y).completeRaisedCount := by
      split <;> simp
    refine ⟨?_, ?_, ?_⟩
    · intro h
      rw [hwrapIC]
      exact lifetimePhase_isComplete_mono Y (by rw [hYic]; exact h)
    · intro hlp
      rw [hwrapRC, lifetimePhase_raised_of_loop Y (by rw [hYlp]; exact hlp), hYrc]
    · intro l _ hlp hl hgt
      have hraise := lifetimePhase_complete_raise Y l (by rw [hYlt]; exact hl)
        (by rw [hYct, hdts]; exact hgt) (by rw [hYlp]; exact hlp)
      constructor
      · rw [hwrapIC, hraise]
      · rw [hwrapRC, hraise]
        show Y.completeRaisedCount + 1 = s.completeRaisedCount + 1
        rw [hYrc]

/-- Witness for C1 (amended): the completion conjunct at a concrete non-looping system
past its lifetime, and the never-raises conjunct at a concrete looping system. -/
theorem C1_completion_amended_witness :
    (ParticleSystem.update { sysNonLoop with previousTime := some 0 } 2 5).isComplete
        = true
    ∧ (ParticleSystem.update { sysNonLoop with previousTime := some 0 } 2 5).completeRaisedCount
        = { sysNonLoop with previousTime := some 0 }.completeRaisedCount + 1
    ∧ (ParticleSystem.update sysHalfRate 3 7).completeRaisedCount
        = sysHalfRate.completeRaisedCount :=
  ⟨((C1_completion_amended { sysNonLoop with previousTime := some 0 } 2 5).2.2 1 rfl rfl
      rfl (of_decide_eq_true (by with_unfolding_all rfl))).1,
   ((C1_completion_amended { sysNonLoop with previousTime := some 0 } 2 5).2.2 1 rfl rfl
      rfl (of_decide_eq_true (by with_unfolding_all rfl))).2,
   (C1_completion_amended sysHalfRate 3 7).2.1 rfl⟩

/-- C6: on a shown, looping system with finite lifetime, when the elapsed time passes
the lifetime during an update, the elapsed time wraps modulo the lifetime (`qmod`),
every burst's fired flag is reset to false, the system does not enter the Complete
state, and the completion event is not raised. -/
theorem C6_loop_wrap (s : ParticleSystem) (time : ℚ) (fn : ℕ) (l : ℚ)
    (hshow : s.shown = true) (hloop : s.loop = true) (hlife : s.lifetime = some l)
    (hexceed : l < s.currentTime + frameDt s time) :
    (ParticleSystem.update s time fn).currentTime
        = qmod (s.currentTime + frameDt s time) l
    ∧ (∀ bl, (ParticleSystem.update s time fn).bursts = some bl →
        ∀ b ∈ bl, b.complete = false)
    ∧ (ParticleSystem.update s time fn).isComplete = s.isComplete
    ∧ (ParticleSystem.update s time fn).completeRaisedCount
        = s.completeRaisedCount := by
  rw [update_eq_of_shown s time fn hshow]
  unfold updateCore
  set dt := frameDt (poolPhase (ensurePhase s)) time with hdt
  set Y := timePhase time dt (phaseEmit dt (phaseSweep dt (poolPhase (ensurePhase s))))
    with hY
  have hdts : dt = frameDt s time := by
    rw [hdt]; exact frameDt_congr _ _ _ (by simp)
  have hYlp : Y.loop = s.loop := by rw [hY]; simp
  have hYlt : Y.lifetime = s.lifetime := by rw [hY]; simp
  have hYic : Y.isComplete = s.isComplete := by rw [hY]; simp
  have hYrc : Y.completeRaisedCount = s.completeRaisedCount := by rw [hY]; simp
  have hYct : Y.currentTime = s.currentTime + dt := by rw [hY]; simp
  have hwrap := lifetimePhase_loop_wrap Y l (by rw [hYlt]; exact hlife)
    (by rw [hYct, hdts]; exact hexceed) (by rw [hYlp]; exact hloop)
  have hwct : (if fn % 120 = 0 then freeParticlePool (lifetimePhase Y)
      else lifetimePhase Y).currentTime = (lifetimePhase Y).currentTime := by
    split <;> simp
  have hwb : (if fn % 120 = 0 then freeParticlePool (lifetimePhase Y)
      else lifetimePhase Y).bursts = (lifetimePhase Y).bursts := by
    split <;> simp
  have hwic : (if fn % 120 = 0 then freeParticlePool (lifetimePhase Y)
      else lifetimePhase Y).isComplete = (lifetimePhase Y).isComplete := by
    split <;> simp
  have hwrc : (if fn % 120 = 0 then freeParticlePool (lifetimePhase Y)
      else lifetimePhase Y).completeRaisedCount
      = (lifetimePhase Y).completeRaisedCount := by
    split <;> simp
  refine ⟨?_, ?_, ?_, ?_⟩
  · rw [hwct, hwrap.1, hYct, hdts]
  · intro bl hbl
    rw [hwb, hwrap.2.2.2] at hbl
    cases hYb : Y.bursts with
    | none => rw [hYb] at hbl; exact Option.noConfusion hbl
    | some bl0 =>
      rw [hYb] at hbl
      have hbl2 : some (bl0.map (fun b => { b with complete := false })) = some bl := hbl
      injection hbl2 with hbl
      intro b hb
      rw [← hbl] at hb
      obtain ⟨b0, _, rfl⟩ := List.mem_map.mp hb
      rfl
  · rw [hwic, hwrap.2.1, hYic]
  · rw [hwrc, hwrap.2.2.1, hYrc]

/-- Witness for C6 at a concrete looping system: lifetime 10, elapsed 7, frame delta 5,
so the nominal elapsed 12 wraps to 2, the burst's fired flag resets, and the system does
not complete. -/
theorem C6_loop_wrap_witness :
    (ParticleSystem.update sysAboutToWrap 5 7).currentTime = 2
    ∧ (ParticleSystem.update sysAboutToWrap 5 7).isComplete = false
    ∧ (∀ b ∈ [(⟨1, 2, 2, false⟩ : ParticleBurst)], b.complete = false) :=
  ⟨((C6_loop_wrap sysAboutToWrap 5 7 10 rfl rfl rfl
      (of_decide_eq_true (by with_unfolding_all rfl))).1).trans
    (of_decide_eq_true (by with_unfolding_all rfl)),
   (C6_loop_wrap sysAboutToWrap 5 7 10 rfl rfl rfl
      (of_decide_eq_true (by with_unfolding_all rfl))).2.2.1,
   by intro b hb; rw [List.mem_singleton.mp hb]⟩

/-- The sweep phase at `dt = 0` with no hook keeps every live particle and adds nothing
to the pool. -/
theorem phaseSweep_zero (s : ParticleSystem) (hhook : s.updateCallback = none)
    (hages : ∀ p ∈ s.particles, p.age ≤ p.life) :
    (phaseSweep 0 s).particles.length = s.particles.length
    ∧ (phaseSweep 0 s).particlePool = s.particlePool := by
  have h := sweepAux_zero s.sizeInMeters s.particles (bcOf s) hages
  unfold phaseSweep sweepGo
  rw [hhook]
  refine ⟨h.2, ?_⟩
  show s.particlePool
      ++ (sweepAux 0 none s.sizeInMeters s.particles.length s.particles (bcOf s)).2.1
    = s.particlePool
  rw [h.1, List.append_nil]

/-- C5: an update whose frame delta clamps to 0 (`dt ≤ 0`, including clock regression)
produces no emission from the rate term (with no bursts, no particles are added and the
emission counter is unchanged, and the carry-over accumulator is untouched), no death
transitions among live particles (the sweep retires none), and no change to elapsed
time; this holds over repeated calls since the state facts it needs are preserved. -/
theorem C5_zero_dt_noop (s : ParticleSystem) (time : ℚ) (fn : ℕ)
    (hdt0 : frameDt s time = 0)
    (hcarry : s.carryOver ≤ 1)
    (hhook : s.updateCallback = none)
    (hages : ∀ p ∈ s.particles, p.age ≤ p.life)
    (hct : ∀ l, s.lifetime = some l → s.currentTime ≤ l) :
    (ParticleSystem.update s time fn).currentTime = s.currentTime
    ∧ (ParticleSystem.update s time fn).carryOver = s.carryOver
    ∧ (∀ bc, (sweepGo 0 none s.sizeInMeters s.particles bc).2.1 = [])
    ∧ (s.bursts = none →
        (ParticleSystem.update s time fn).particles.length = s.particles.length
        ∧ (ParticleSystem.update s time fn).emittedTotal = s.emittedTotal) := by
  have hsweep : ∀ bc, (sweepGo 0 none s.sizeInMeters s.particles bc).2.1 = [] :=
    fun bc => (sweepAux_zero s.sizeInMeters s.particles bc hages).1
  cases hs : s.shown with
  | false =>
    rw [update_eq_of_hidden s time fn hs]
    exact ⟨rfl, rfl, hsweep, fun _ => ⟨rfl, rfl⟩⟩
  | true =>
    rw [update_eq_of_shown s time fn hs]
    unfold updateCore
    have hdts : frameDt (poolPhase (ensurePhase s)) time = 0 :=
      (frameDt_congr _ s _ (by simp)).trans hdt0
    rw [hdts]
    set F := poolPhase (ensurePhase s) with hF
    set X := phaseSweep 0 F with hX
    have hFcb : F.updateCallback = none := by rw [hF]; simp [hhook]
    have hFps : F.particles = s.particles := by rw [hF]; simp
    have hXco : X.carryOver = s.carryOver := by rw [hX, hF]; simp
    have hXct : X.currentTime = s.currentTime := by rw [hX, hF]; simp
    have hXlt : X.lifetime = s.lifetime := by rw [hX, hF]; simp
    have hXet : X.emittedTotal = s.emittedTotal := by rw [hX, hF]; simp
    have hXb : X.bursts = s.bursts := by rw [hX, hF]; simp
    set Y := timePhase time 0 (phaseEmit 0 X) with hY
    have hYct : Y.currentTime = s.currentTime := by
      rw [hY, timePhase_currentTime, phaseEmit_currentTime, hXct, add_zero]
    have hYlt : Y.lifetime = s.lifetime := by
      rw [hY, timePhase_lifetime, phaseEmit_lifetime, hXlt]
    have hlife : lifetimePhase Y = Y := by
      cases hl : s.lifetime with
      | none => exact lifetimePhase_of_none Y (by rw [hYlt, hl])
      | some l =>
        refine lifetimePhase_of_le Y l (by rw [hYlt, hl]) ?_
        rw [hYct]
        exact not_lt.mpr (hct l hl)
    have hwrap : ∀ (g : ParticleSystem → ℚ), (∀ t, g (freeParticlePool t) = g t) →
        g (if fn % 120 = 0 then freeParticlePool (lifetimePhase Y)
           else lifetimePhase Y) = g (lifetimePhase Y) := by
      intro g hg
      split
      · exact hg _
      · rfl
    refine ⟨?_, ?_, hsweep, ?_⟩
    · rw [hwrap (fun t => t.currentTime) (fun t => rfl), hlife, hYct]
    · rw [hwrap (fun t => t.carryOver) (fun t => rfl), hlife, hY,
        timePhase_carryOver, phaseEmit_carryOver,
        (calc_zero_dt X (by rw [hXco]; exact hcarry)).1, hXco]
    · intro hbn
      have hcalc : calculateNumberToEmit X 0 = (X, 0) :=
        (calc_zero_dt X (by rw [hXco]; exact hcarry)).2 (by rw [hXb, hbn])
      have hPE : phaseEmit 0 X = X := phaseEmit_of_zero 0 X hcalc
      have hsz := phaseSweep_zero F hFcb (by rw [hFps]; exact hages)
      constructor
      · have hlen : (if fn % 120 = 0 then freeParticlePool (lifetimePhase Y)
            else lifetimePhase Y).particles.length
            = (lifetimePhase Y).particles.length := by
          split <;> simp
        rw [hlen, hlife, hY, timePhase_particles, hPE, hX]
        rw [hsz.1, hFps]
      · have hlen : (if fn % 120 = 0 then freeParticlePool (lifetimePhase Y)
            else lifetimePhase Y).emittedTotal
            = (lifetimePhase Y).emittedTotal := by
          split <;> simp
        rw [hlen, hlife, hY, timePhase_emittedTotal, hPE, hXet]

/-- Witness for C5 at a concrete mid-run system updated with an unchanged frame time
(so the raw delta is 0). -/
theorem C5_zero_dt_noop_witness :
    (ParticleSystem.update sysMidRun 5 9).currentTime = sysMidRun.currentTime
    ∧ (ParticleSystem.update sysMidRun 5 9).carryOver = sysMidRun.carryOver
    ∧ (ParticleSystem.update sysMidRun 5 9).particles.length
        = sysMidRun.particles.length :=
  ⟨(C5_zero_dt_noop sysMidRun 5 9 (of_decide_eq_true (by with_unfolding_all rfl))
      (of_decide_eq_true (by with_unfolding_all rfl)) rfl
      (of_decide_eq_true (by with_unfolding_all rfl))
      (fun l h => Option.noConfusion h)).1,
   (C5_zero_dt_noop sysMidRun 5 9 (of_decide_eq_true (by with_unfolding_all rfl))
      (of_decide_eq_true (by with_unfolding_all rfl)) rfl
      (of_decide_eq_true (by with_unfolding_all rfl))
      (fun l h => Option.noConfusion h)).2.1,
   ((C5_zero_dt_noop sysMidRun 5 9 (of_decide_eq_true (by with_unfolding_all rfl))
      (of_decide_eq_true (by with_unfolding_all rfl)) rfl
      (of_decide_eq_true (by with_unfolding_all rfl))
      (fun l h => Option.noConfusion h)).2.2.2 rfl).1⟩

/-- C10: after the system has entered the Complete state (non-looping), a shown update
still runs the full live-particle pass — each particle is advanced by `dt` and either
retired into the pool or given a billboard push, exactly the sweep's output — elapsed
time still advances by `dt`, and only emission is suppressed: the scheduler returns 0
for every complete state, and the emission counter does not move. -/
theorem C10_complete_still_updates (s : ParticleSystem) (time : ℚ) (fn : ℕ)
    (bc0 : BillboardCollection)
    (hic : s.isComplete = true) (hshow : s.shown = true) (hloop : s.loop = false)
    (hbc : s.billboardCollection = some bc0)
    (hflag : s.updateParticlePoolFlag = false)
    (h120 : fn % 120 ≠ 0) :
    (∀ (t : ParticleSystem) (d : ℚ), t.isComplete = true →
        (calculateNumberToEmit t d).2 = 0)
    ∧ (ParticleSystem.update s time fn).currentTime = s.currentTime + frameDt s time
    ∧ (ParticleSystem.update s time fn).particles
        = (sweepGo (frameDt s time) s.updateCallback s.sizeInMeters s.particles bc0).1
    ∧ (ParticleSystem.update s time fn).particlePool
        = s.particlePool
          ++ (sweepGo (frameDt s time) s.updateCallback s.sizeInMeters s.particles bc0).2.1
    ∧ (ParticleSystem.update s time fn).billboardCollection
        = some (sweepGo (frameDt s time) s.updateCallback s.sizeInMeters s.particles bc0).2.2
    ∧ (ParticleSystem.update s time fn).emittedTotal = s.emittedTotal
    ∧ (ParticleSystem.update s time fn).isComplete = true := by
  have hcalc0 : ∀ (t : ParticleSystem) (d : ℚ), t.isComplete = true →
      (calculateNumberToEmit t d).2 = 0 := by
    intro t d h
    rw [calc_of_complete t d h]
  rw [update_eq_of_shown s time fn hshow]
  unfold updateCore
  rw [poolPhase_of_flag_false (ensurePhase s)
    (by rw [ensurePhase_updateParticlePoolFlag]; exact hflag),
    ensurePhase_of_some s bc0 hbc]
  rw [if_neg h120]
  set dt := frameDt s time with hdt
  set X := phaseSweep dt s with hX
  have hXic : X.isComplete = true := by rw [hX, phaseSweep_isComplete]; exact hic
  have hPE : phaseEmit dt X = X :=
    phaseEmit_of_zero dt X (calc_of_complete X dt hXic)
  have hXbc : bcOf s = bc0 := by unfold bcOf; rw [hbc]; rfl
  have hXps : X.particles
      = (sweepGo dt s.updateCallback s.sizeInMeters s.particles bc0).1 := by
    rw [hX]; show (sweepGo dt s.updateCallback s.sizeInMeters s.particles (bcOf s)).1 = _
    rw [hXbc]
  have hXpool : X.particlePool
      = s.particlePool
        ++ (sweepGo dt s.updateCallback s.sizeInMeters s.particles bc0).2.1 := by
    rw [hX]
    show s.particlePool
        ++ (sweepGo dt s.updateCallback s.sizeInMeters s.particles (bcOf s)).2.1 = _
    rw [hXbc]
  have hXbc2 : X.billboardCollection
      = some (sweepGo dt s.updateCallback s.sizeInMeters s.particles bc0).2.2 := by
    rw [hX]
    show some (sweepGo dt s.updateCallback s.sizeInMeters s.particles (bcOf s)).2.2 = _
    rw [hXbc]
  set Y := timePhase time dt (phaseEmit dt X) with hY
  have hYlp : Y.loop = false := by
    rw [hY, timePhase_loop, hPE, hX, phaseSweep_loop]; exact hloop
  refine ⟨hcalc0, ?_, ?_, ?_, ?_, ?_, ?_⟩
  · rw [lifetimePhase_currentTime_of_loop_false Y hYlp, hY, timePhase_currentTime, hPE,
      hX, phaseSweep_currentTime]
  · rw [lifetimePhase_particles, hY, timePhase_particles, hPE, hXps]
  · rw [lifetimePhase_particlePool, hY, timePhase_particlePool, hPE, hXpool]
  · rw [lifetimePhase_billboardCollection, hY, timePhase_billboardCollection, hPE, hXbc2]
  · rw [lifetimePhase_emittedTotal, hY, timePhase_emittedTotal, hPE, hX,
      phaseSweep_emittedTotal]
  · exact lifetimePhase_isComplete_mono Y
      (by rw [hY, timePhase_isComplete, hPE, hXic])

/-- Witness for C10 at a concrete completed system with one live particle. -/
theorem C10_complete_still_updates_witness :
    (ParticleSystem.update sysCompleted 1 7).currentTime
        = sysCompleted.currentTime + frameDt sysCompleted 1
    ∧ (ParticleSystem.update sysCompleted 1 7).emittedTotal = sysCompleted.emittedTotal
    ∧ (ParticleSystem.update sysCompleted 1 7).isComplete = true :=
  ⟨(C10_complete_still_updates sysCompleted 1 7 BillboardCollection.empty rfl rfl rfl
      rfl rfl (of_decide_eq_true (by with_unfolding_all rfl))).2.1,
   (C10_complete_still_updates sysCompleted 1 7 BillboardCollection.empty rfl rfl rfl
      rfl rfl (of_decide_eq_true (by with_unfolding_all rfl))).2.2.2.2.2.1,
   (C10_complete_still_updates sysCompleted 1 7 BillboardCollection.empty rfl rfl rfl
      rfl rfl (of_decide_eq_true (by with_unfolding_all rfl))).2.2.2.2.2.2⟩

/-- C4 counterexample: with `emissionRate = 0` and one burst at `time = 0` with
`min = max = 3`, the first update tick emits nothing (the burst check reads the elapsed
time accumulated before the call, which is still 0, and `0 > 0` fails); the 3 particles
only appear at the first update whose previously-accumulated elapsed time is positive
(here the third call), and the total then stays at 3. -/
theorem C4_counterexample :
    (ParticleSystem.update sysBurst3 5 1).emittedTotal = 0
    ∧ (ParticleSystem.update sysBurst3 5 1).particles.length = 0
    ∧ (runUpdates sysBurst3 [(5, 1), (6, 2)]).emittedTotal = 0
    ∧ (runUpdates sysBurst3 [(5, 1), (6, 2), (7, 3)]).emittedTotal = 3
    ∧ (runUpdates sysBurst3 [(5, 1), (6, 2), (7, 3), (8, 4)]).emittedTotal = 3 :=
  of_decide_eq_true (by with_unfolding_all rfl)

/-- C4 (amended): a burst with `minimum = maximum = n` adds exactly `n` particles to the
emission count at the update at which it fires, namely the first update at which the
elapsed time accumulated through the previous updates strictly exceeds its trigger time
(not the first update tick); the fired flag then suppresses it permanently while the
lifetime is infinite, so in the `emissionRate = 0` scenario exactly `n` particles are
ever emitted. -/
theorem C4_burst_amended (s : ParticleSystem) (time : ℚ) (fn : ℕ) (τ : ℚ) (n : ℕ)
    (b : Bool) (e : Particle → Particle)
    (hshow : s.shown = true) (hic : s.isComplete = false)
    (hrate : s.emissionRate = 0) (hco : s.carryOver = 0)
    (hb : s.bursts = some [⟨τ, (n : ℚ), (n : ℚ), b⟩]) (hlife : s.lifetime = none)
    (he : s.emitter = some e) (hps : s.particles = []) :
    (ParticleSystem.update s time fn).emittedTotal
        = s.emittedTotal + (if b = false ∧ τ < s.currentTime then n else 0)
    ∧ (ParticleSystem.update s time fn).particles.length
        = (if b = false ∧ τ < s.currentTime then n else 0)
    ∧ (ParticleSystem.update s time fn).bursts
        = some [⟨τ, (n : ℚ), (n : ℚ),
            if b = false ∧ τ < s.currentTime then true else b⟩]
    ∧ (ParticleSystem.update s time fn).carryOver = 0 := by
  rw [update_eq_of_shown s time fn hshow]
  unfold updateCore
  set dt := frameDt (poolPhase (ensurePhase s)) time with hdt
  set X := phaseSweep dt (poolPhase (ensurePhase s)) with hX
  have hXic : X.isComplete = false := by rw [hX]; simp [hic]
  have hXrate : X.emissionRate = 0 := by rw [hX]; simp [hrate]
  have hXco : X.carryOver = 0 := by rw [hX]; simp [hco]
  have hXb : X.bursts = some [⟨τ, (n : ℚ), (n : ℚ), b⟩] := by rw [hX]; simp [hb]
  have hXct : X.currentTime = s.currentTime := by rw [hX]; simp
  have hXe : X.emitter = some e := by rw [hX]; simp [he]
  have hXet : X.emittedTotal = s.emittedTotal := by rw [hX]; simp
  have hXlt : X.lifetime = none := by rw [hX]; simp [hlife]
  have hXps : X.particles = [] := by
    rw [hX]
    show (sweepGo dt (poolPhase (ensurePhase s)).updateCallback
      (poolPhase (ensurePhase s)).sizeInMeters (poolPhase (ensurePhase s)).particles
      (bcOf (poolPhase (ensurePhase s)))).1 = []
    rw [poolPhase_particles, ensurePhase_particles, hps]
    rfl
  have hcsb := calc_single_burst X dt τ (n : ℚ) b hXic hXrate hXco hXb
  rw [hXct] at hcsb
  set m : ℕ := if b = false ∧ τ < s.currentTime then n else 0 with hm
  have hcount : (calculateNumberToEmit X dt).2 = (m : ℚ) := by
    rw [hcsb.1, hm]
    by_cases hc : b = false ∧ τ < s.currentTime <;> simp [hc]
  have hpec := phaseEmit_counts dt X e m hXe hcount
  set Y := timePhase time dt (phaseEmit dt X) with hY
  have hYlt : Y.lifetime = none := by
    rw [hY, timePhase_lifetime, phaseEmit_lifetime, hXlt]
  have hlp : lifetimePhase Y = Y := lifetimePhase_of_none Y hYlt
  have hwet : (if fn % 120 = 0 then freeParticlePool (lifetimePhase Y)
      else lifetimePhase Y).emittedTotal = (lifetimePhase Y).emittedTotal := by
    split <;> simp
  have hwps : (if fn % 120 = 0 then freeParticlePool (lifetimePhase Y)
      else lifetimePhase Y).particles = (lifetimePhase Y).particles := by
    split <;> simp
  have hwb : (if fn % 120 = 0 then freeParticlePool (lifetimePhase Y)
      else lifetimePhase Y).bursts = (lifetimePhase Y).bursts := by
    split <;> simp
  have hwco : (if fn % 120 = 0 then freeParticlePool (lifetimePhase Y)
      else lifetimePhase Y).carryOver = (lifetimePhase Y).carryOver := by
    split <;> simp
  refine ⟨?_, ?_, ?_, ?_⟩
  · rw [hwet, hlp, hY, timePhase_emittedTotal, hpec.1, hXet]
  · rw [hwps, hlp, hY, timePhase_particles, hpec.2.1, hXps]
    simp
  · rw [hwb, hlp, hY, timePhase_bursts, hpec.2.2.1, hcsb.2.2]
  · rw [hwco, hlp, hY, timePhase_carryOver, hpec.2.2.2, hcsb.2.1]

/-- Witness for C4 (amended) at a concrete system whose pre-update elapsed time is 1,
past the burst trigger 0, so the burst fires and 3 particles appear. -/
theorem C4_burst_amended_witness :
    (ParticleSystem.update
        { sysBurst3 with previousTime := some 0, currentTime := 1 } 2 5).particles.length
      = (if false = false
          ∧ (0 : ℚ) < ({ sysBurst3 with previousTime := some 0, currentTime := 1 }
              : ParticleSystem).currentTime then 3 else 0)
    ∧ (ParticleSystem.update
        { sysBurst3 with previousTime := some 0, currentTime := 1 } 2 5).carryOver
      = 0 :=
  ⟨(C4_burst_amended { sysBurst3 with previousTime := some 0, currentTime := 1 } 2 5 0 3
      false (fun p => p) rfl rfl rfl rfl
      (of_decide_eq_true (by with_unfolding_all rfl)) rfl rfl rfl).2.1,
   (C4_burst_amended { sysBurst3 with previousTime := some 0, currentTime := 1 } 2 5 0 3
      false (fun p => p) rfl rfl rfl rfl
      (of_decide_eq_true (by with_unfolding_all rfl)) rfl rfl rfl).2.2.2⟩

/-- C7: on a well-formed billboard collection (every handle below the next fresh one —
true of every collection the system ever builds), `updateParticlePool` recomputes
`estimate = ceil(emissionRate * maxParticleLife + sum of burst maxima)`, pre-allocates
exactly `max(estimate - liveCount - poolSize, 0)` new particles, each pre-registered
with a billboard that is present and hidden in the collection; the configuration setters
for the emission rate, the bursts and the maximum particle life all flag the pool for
resizing, and the next shown update installs the recomputed estimate. -/
theorem C7_capacity_estimation (s : ParticleSystem)
    (hwf : ∀ en ∈ (bcOf s).entries, en.1 < (bcOf s).nextId) :
    (updateParticlePool s).particleEstimate
        = ⌈s.emissionRate * s.maximumParticleLife + burstMaxSum s⌉
    ∧ (updateParticlePool s).particlePool.length
        = s.particlePool.length
          + (max (⌈s.emissionRate * s.maximumParticleLife + burstMaxSum s⌉
              - s.particles.length - s.particlePool.length) 0).toNat
    ∧ (∀ p ∈ (updateParticlePool s).particlePool.drop s.particlePool.length,
        ∃ h, p.billboard = some h
          ∧ ∃ bb, ((updateParticlePool s).billboardCollection.getD
                BillboardCollection.empty).find h = some bb ∧ bb.shown = false)
    ∧ (∀ v, (setEmissionRate s v).updateParticlePoolFlag = true)
    ∧ (∀ v, (setBursts s v).updateParticlePoolFlag = true)
    ∧ (∀ v, (setMaximumParticleLife s v).updateParticlePoolFlag = true)
    ∧ (s.shown = true → s.updateParticlePoolFlag = true → ∀ (time : ℚ) (fn : ℕ),
        (ParticleSystem.update s time fn).particleEstimate
          = ⌈s.emissionRate * s.maximumParticleLife + burstMaxSum s⌉) := by
  obtain ⟨news, h1, h2, h3, h4⟩ := addNewParticles_spec s.image
    ((max (estimateOf s - s.particles.length - s.particlePool.length) 0).toNat)
    (s.particlePool, bcOf s) hwf
  have hpool : (updateParticlePool s).particlePool = s.particlePool ++ news := h1
  have hest : (⌈s.emissionRate * s.maximumParticleLife + burstMaxSum s⌉ : ℤ)
      = estimateOf s := rfl
  rw [hest]
  refine ⟨rfl, ?_, ?_, fun _ => rfl, fun _ => rfl, fun _ => rfl, ?_⟩
  · rw [hpool, List.length_append, h2]
  · intro p hp
    rw [hpool, List.drop_left] at hp
    exact h4 p hp
  · intro hsh hfl time fn
    rw [update_eq_of_shown s time fn hsh]
    have hcore : (updateCore s time).particleEstimate = estimateOf s := by
      unfold updateCore
      rw [lifetimePhase_particleEstimate, timePhase_particleEstimate,
        phaseEmit_particleEstimate, phaseSweep_particleEstimate,
        poolPhase_particleEstimate_of_flag (ensurePhase s)
          (by rw [ensurePhase_updateParticlePoolFlag]; exact hfl)]
      rfl
    split
    · rw [freeParticlePool_particleEstimate, hcore]
    · rw [hcore]

/-- Witness for C7 at a concrete system (rate 1, max particle life 2, no bursts: estimate
2, so 2 particles are pre-allocated into the empty pool). -/
theorem C7_capacity_estimation_witness :
    (updateParticlePool sysHalfRate).particleEstimate
        = ⌈sysHalfRate.emissionRate * sysHalfRate.maximumParticleLife
            + burstMaxSum sysHalfRate⌉
    ∧ (updateParticlePool sysHalfRate).particlePool.length
        = sysHalfRate.particlePool.length
          + (max (⌈sysHalfRate.emissionRate * sysHalfRate.maximumParticleLife
              + burstMaxSum sysHalfRate⌉
              - sysHalfRate.particles.length - sysHalfRate.particlePool.length) 0).toNat
    ∧ (ParticleSystem.update sysHalfRate 0 1).particleEstimate
        = ⌈sysHalfRate.emissionRate * sysHalfRate.maximumParticleLife
            + burstMaxSum sysHalfRate⌉ :=
  ⟨(C7_capacity_estimation sysHalfRate
      (of_decide_eq_true (by with_unfolding_all rfl))).1,
   (C7_capacity_estimation sysHalfRate
      (of_decide_eq_true (by with_unfolding_all rfl))).2.1,
   (C7_capacity_estimation sysHalfRate
      (of_decide_eq_true (by with_unfolding_all rfl))).2.2.2.2.2.2 rfl rfl 0 1⟩

/-- The billboard push does not touch the particle's velocity. -/
theorem updateBillboard_fst_velocity (sim : Bool) (bc : BillboardCollection)
    (p : Particle) : (updateBillboard sim bc p).1.velocity = p.velocity := by
  unfold updateBillboard
  cases p.billboard <;> rfl

/-- The velocity of the particle built by one emission iteration, read off the source:
the emitter's direction is transformed via `position + velocity`, re-based on the
transformed position, normalized, and only then scaled by the sampled speed. -/
theorem emittedParticle_velocity (e : Particle → Particle) (s : ParticleSystem) :
    (emittedParticle e s).velocity
      = Cart3.smul
          (randomBetween (s.rand (s.randIndex + 4)) s.minimumSpeed s.maximumSpeed)
          (normalizeQ s.sqrtFn (Cart3.sub
            (Matrix4Q.multiplyByPoint s.combinedMatrix
              (Cart3.add (e (popPool s.particlePool).1).position
                (e (popPool s.particlePool).1).velocity))
            (Matrix4Q.multiplyByPoint s.combinedMatrix
              (e (popPool s.particlePool).1).position))) := rfl

/-- The last element of a push. -/
theorem getLast?_append_singleton {α : Type} (l : List α) (a : α) :
    (l ++ [a]).getLast? = some a := by
  simp

/-- C9 counterexample: the claim's mechanism does not match the code.  `emitOneSpecOrder`
follows the claim's words (speed applied to the velocity before the rotation step, then
transform + normalize, with no later rescaling); on an identity transform, a unit
emitter velocity and configured speed 2, the source (`emitOne`) emits velocity (2,0,0) —
the speed is applied after normalization — while the claimed order yields (1,0,0),
normalization having discarded the configured speed. -/
theorem C9_counterexample :
    (emitOne emitterUnitX sysRotate).particles.map Particle.velocity = [⟨2, 0, 0⟩]
    ∧ (emitOneSpecOrder emitterUnitX sysRotate).particles.map Particle.velocity
        = [⟨1, 0, 0⟩]
    ∧ randomBetween (sysRotate.rand (sysRotate.randIndex + 4)) sysRotate.minimumSpeed
        sysRotate.maximumSpeed = 2
    ∧ Cart3.dot (⟨2, 0, 0⟩ : Cart3) ⟨2, 0, 0⟩ = 2 * 2
    ∧ Cart3.dot (⟨1, 0, 0⟩ : Cart3) ⟨1, 0, 0⟩ ≠ 2 * 2 :=
  of_decide_eq_true (by with_unfolding_all rfl)

/-- C9 (amended): for every emitted particle, the velocity is rotated into world space
by transforming `position + velocity` by the combined matrix, subtracting the
transformed position, and normalizing; the particle's resulting speed is decoupled from
the transform's scale because the velocity magnitude, sampled from the configured speed
bounds, is applied by scaling after this rotate-and-normalize step (in `addParticle`),
so whenever the square root is exact on the transformed direction's squared magnitude
and that direction is nonzero, the squared final speed equals the squared sampled
speed. -/
theorem C9_rotation_amended (e : Particle → Particle) (s : ParticleSystem)
    (u : Cart3) (speed : ℚ)
    (hu : u = Cart3.sub
        (Matrix4Q.multiplyByPoint s.combinedMatrix
          (Cart3.add (e (popPool s.particlePool).1).position
            (e (popPool s.particlePool).1).velocity))
        (Matrix4Q.multiplyByPoint s.combinedMatrix
          (e (popPool s.particlePool).1).position))
    (hspeed : speed = randomBetween (s.rand (s.randIndex + 4)) s.minimumSpeed
        s.maximumSpeed)
    (hsq : s.sqrtFn (Cart3.dot u u) * s.sqrtFn (Cart3.dot u u) = Cart3.dot u u)
    (hnz : Cart3.dot u u ≠ 0) :
    (emitOne e s).particles.getLast?.map Particle.velocity
      = some (Cart3.smul speed (normalizeQ s.sqrtFn u))
    ∧ (emitOne e s).particles.getLast?.map (fun p => Cart3.dot p.velocity p.velocity)
      = some (speed * speed) := by
  have hlast : (emitOne e s).particles.getLast?
      = some (updateBillboard s.sizeInMeters (bcOf s) (emittedParticle e s)).1 := by
    rw [show (emitOne e s).particles = s.particles
      ++ [(updateBillboard s.sizeInMeters (bcOf s) (emittedParticle e s)).1] from rfl]
    exact getLast?_append_singleton _ _
  have hvel : (updateBillboard s.sizeInMeters (bcOf s) (emittedParticle e s)).1.velocity
      = Cart3.smul speed (normalizeQ s.sqrtFn u) := by
    rw [updateBillboard_fst_velocity, emittedParticle_velocity, ← hu, ← hspeed]
  constructor
  · rw [hlast, Option.map_some', hvel]
  · rw [hlast, Option.map_some', hvel]
    refine congrArg some ?_
    have hmne : s.sqrtFn (Cart3.dot u u) ≠ 0 := by
      intro h0
      exact hnz (by rw [← hsq, h0, mul_zero])
    simp only [normalizeQ, Cart3.smul, Cart3.dot] at hsq hnz hmne ⊢
    set m := s.sqrtFn (u.x * u.x + u.y * u.y + u.z * u.z) with hmdef
    have key : speed * (u.x / m) * (speed * (u.x / m))
        + speed * (u.y / m) * (speed * (u.y / m))
        + speed * (u.z / m) * (speed * (u.z / m))
        = speed * speed * ((u.x * u.x + u.y * u.y + u.z * u.z) / (m * m)) := by
      ring
    rw [key, ← hsq, div_self (mul_ne_zero hmne hmne), mul_one]

/-- Witness for C9 (amended) at a concrete scaling transform (factor 3), emitter
direction (0,3,4) and configured speed 2: the emitted squared speed is 4 — the sampled
speed squared, independent of the transform's scale. -/
theorem C9_rotation_amended_witness :
    (emitOne emitter034 sysRotateScaled).particles.getLast?.map
        (fun p => Cart3.dot p.velocity p.velocity) = some (2 * 2) :=
  (C9_rotation_amended emitter034 sysRotateScaled ⟨0, 9, 12⟩ 2
    (of_decide_eq_true (by with_unfolding_all rfl))
    (of_decide_eq_true (by with_unfolding_all rfl))
    (of_decide_eq_true (by with_unfolding_all rfl))
    (of_decide_eq_true (by with_unfolding_all rfl))).2

end Cesium
